import Mathlib

/-!
Shallow embedding of the 44ripd routing daemon (src/main.c and
src/freebsd/sys.c) for checking its natural-language specification.

The daemon keeps three CIDR-keyed maps (acceptance policy, routes,
tunnels), a bitvec of allocated tunnel interface numbers, and a pointer
graph between Tunnel and Route records.  The embedding models the
pointer heap as two functions from allocation ids to records, and the
C functions of main.c as state transformers that additionally emit an
event trace recording, in program order, the OS-adapter invocations and
the graph-mutation calls (linkroute / unlinkroute / collapse).

The IPMap trie, the Bitvec and netmask2cidr live in lib.c, which is not
part of the sources under verification; those operations are modelled
from the specification (section 4.1, 4.2 and the netmask_to_cidr
description) at the level of their observable behaviour, and each such
definition carries a doc comment saying so.
-/

namespace Ripd

/-- Identifier of a heap-allocated Route record (stands for the C pointer). -/
abbrev RId := Nat

/-- Identifier of a heap-allocated Tunnel record (stands for the C pointer). -/
abbrev TId := Nat

/-- Route record, from struct Route (dat.h) as used by main.c: destination
network, contiguous netmask, gateway, expiration time and the weak
back-pointer to the serving tunnel.  The rnext intrusive list link is
represented by the position of the id inside Tunnel.routes. -/
structure Route where
  ipnet : Nat
  subnetmask : Nat
  gateway : Nat
  expires : Int
  tunnel : Option TId
  deriving Repr, DecidableEq

/-- Tunnel record, from struct Tunnel (dat.h) as used by main.c: the four
encapsulation endpoints, interface name and number, the list of linked
routes (head of the rnext chain) and the reference count nref. -/
structure Tunnel where
  outer_local : Nat
  outer_remote : Nat
  inner_local : Nat
  inner_remote : Nat
  ifname : String
  ifnum : Nat
  routes : List RId
  nref : Int
  deriving Repr, DecidableEq

/-- Acceptance policy payloads: the ACCEPT and IGNORE sentinels of main.c. -/
inductive Policy where
  | accept
  | ignore
  deriving Repr, DecidableEq

/-- Modelled from the spec: the IPMap trie of lib.c, viewed extensionally as
an association list from (key, keylen) prefixes to payloads.  Insertion
prepends, and all operations compare prefixes through the first keylen
bits, which is the observable behaviour section 4.1 specifies. -/
abbrev IPMap (α : Type) := List ((Nat × Nat) × α)

/-- All-ones 32-bit mask; sys.c builds it from 255.255.255.255. -/
def hostmask : Nat := 0xFFFFFFFF

/-- Modelled from the spec: the mask selecting the first l bits of a 32-bit
address, clamped at 32 (keylen values beyond 32 behave as full masks). -/
def prefMask (l : Nat) : Nat :=
  if 32 ≤ l then hostmask else (hostmask <<< (32 - l)) % (2 ^ 32)

/-- Modelled from the spec: does the entry e exactly match the query
prefix (k, l)?  Exact match is equal length and equal first l bits. -/
def entMatch (k l : Nat) (e : (Nat × Nat) × α) : Bool :=
  e.1.2 == l && (e.1.1 &&& prefMask l) == (k &&& prefMask l)

/-- Modelled from the spec: ipmapfind, the exact-match lookup of lib.c. -/
def ipmapfind (m : IPMap α) (k l : Nat) : Option α :=
  (m.find? (entMatch k l)).map (·.2)

/-- Modelled from the spec: ipmapinsert of lib.c.  Inserts if the exact key
is absent, and returns the already-present payload otherwise, so the
caller can detect duplicates. -/
def ipmapinsert (m : IPMap α) (k l : Nat) (v : α) : IPMap α × α :=
  match m.find? (entMatch k l) with
  | some e => (m, e.2)
  | none => (((k, l), v) :: m, v)

/-- Modelled from the spec: ipmapremove of lib.c, removing the (single)
entry exactly matching the key. -/
def ipmapremove (m : IPMap α) (k l : Nat) : IPMap α :=
  match m with
  | [] => []
  | e :: rest => if entMatch k l e then rest else e :: ipmapremove rest k l

/-- Modelled from the spec: does entry e cover the query (k, l), i.e. is it
a prefix of k of length at most l? -/
def covEnt (k l : Nat) (e : (Nat × Nat) × α) : Bool :=
  decide (e.1.2 ≤ l) && (e.1.1 &&& prefMask e.1.2) == (k &&& prefMask e.1.2)

/-- Modelled from the spec: ipmapnearest of lib.c, the longest-prefix match
of length at most l covering k. -/
def ipmapnearest (m : IPMap α) (k l : Nat) : Option α :=
  (m.foldl (fun best e =>
    if covEnt k l e then
      match best with
      | none => some e
      | some b => if b.1.2 < e.1.2 then some e else some b
    else best) none).map (·.2)

/-- Modelled from the spec: netmask2cidr of lib.c; returns the prefix
length of a contiguous-ones mask and -1 for a non-contiguous mask, as
its discovery-time caller and spec section 4.4 step 1 describe. -/
def netmask2cidr (m : Nat) : Int :=
  match (List.range 33).find? (fun c => prefMask c == m) with
  | some c => (c : Int)
  | none => -1

/-- The C int returned by netmask2cidr is converted to the size_t keylen
parameter of the IPMap calls: reduction modulo 2^64. -/
def cidrKey (c : Int) : Nat := (c % (2 ^ 64 : Int)).toNat

/-- Modelled from the spec: nextbit of the lib.c Bitvec, the lowest index
not currently set.  The search range card + 1 always contains one. -/
def nextbit (s : Finset Nat) : Nat :=
  ((List.range (s.card + 1)).find? (fun n => decide (n ∉ s))).getD 0

/-- RIP response record as consumed by ripresponse: destination network,
netmask and next hop, all host-order 32-bit values. -/
structure RIPResponse where
  ipaddr : Nat
  subnetmask : Nat
  nexthop : Nat
  deriving Repr, DecidableEq

/-- Whole-daemon state: the globals of main.c (acceptableroutes, routes,
tunnels, interfaces, staticinterfaces, local addresses) plus the heap of
Route and Tunnel records and the next fresh allocation ids. -/
structure St where
  local_outer_addr : Nat
  local_inner_addr : Nat
  acceptable : IPMap Policy
  routes : IPMap RId
  tunnels : IPMap TId
  interfaces : Finset Nat
  staticifs : Finset Nat
  heapR : RId → Route
  heapT : TId → Tunnel
  nextR : RId
  nextT : TId

/-- Pointwise update of the Route heap. -/
def updR (h : RId → Route) (i : RId) (r : Route) : RId → Route :=
  fun j => if j = i then r else h j

/-- Pointwise update of the Tunnel heap. -/
def updT (h : TId → Tunnel) (i : TId) (t : Tunnel) : TId → Tunnel :=
  fun j => if j = i then t else h j

/-- Event trace entries: the OS-adapter invocations made by main.c
(addroute, chroute, uptunnel, downtunnel) and the graph-mutation calls
(unlinkroute, collapse, linkroute), recorded in program order. -/
inductive Ev where
  | addrouteC (r : RId) (t : TId)
  | chrouteC (r : RId) (t : TId)
  | uptunnelC (t : TId)
  | downtunnelC (t : TId)
  | unlinkG (t : Option TId) (r : RId)
  | collapseG (t : Option TId)
  | linkG (t : TId) (r : RId)
  deriving Repr, DecidableEq

/-- Is the event a kernel routing call (the addroute / chroute adapter
invocations of step 8 of the reconciler)? -/
def isRoutingCall : Ev → Bool
  | .addrouteC _ _ => true
  | .chrouteC _ _ => true
  | _ => false

/-- Is the event one of the three graph-mutation calls? -/
def isGraphEv : Ev → Bool
  | .unlinkG _ _ => true
  | .collapseG _ => true
  | .linkG _ _ => true
  | _ => false

/-- mkroute of main.c: a calloc-fresh Route with the given network, mask
and gateway; expires zero and no tunnel back-pointer. -/
def mkroute (ipnet subnetmask gateway : Nat) : Route :=
  { ipnet := ipnet, subnetmask := subnetmask, gateway := gateway,
    expires := 0, tunnel := none }

/-- mktunnel of main.c: a calloc-fresh Tunnel with the four endpoints and
empty route list. -/
def mktunnel (ol orr il ir : Nat) : Tunnel :=
  { outer_local := ol, outer_remote := orr, inner_local := il,
    inner_remote := ir, ifname := "", ifnum := 0, routes := [], nref := 0 }

/-- unlinkroute's list removal: drop the first element whose Route record
matches the given route's (ipnet, subnetmask), as the loop in main.c
compares tmp against the argument route. -/
def removeFirstMatch (h : RId → Route) (key : Route) : List RId → Option (List RId)
  | [] => none
  | x :: xs =>
    if (h x).ipnet = key.ipnet ∧ (h x).subnetmask = key.subnetmask then some xs
    else (removeFirstMatch h key xs).map (x :: ·)

/-- linkroute of main.c: prepend the route to the tunnel's list, point the
route's back-pointer at the tunnel, copy the tunnel's outer_remote into
route.gateway and increment nref. -/
def linkroute (st : St) (tid : TId) (rid : RId) : St × List Ev :=
  let t := st.heapT tid
  let r := st.heapR rid
  ({ st with
      heapT := updT st.heapT tid { t with routes := rid :: t.routes, nref := t.nref + 1 },
      heapR := updR st.heapR rid { r with tunnel := some tid, gateway := t.outer_remote } },
   [Ev.linkG tid rid])

/-- unlinkroute of main.c: a no-op when the tunnel pointer is nil;
otherwise remove the first list element matching the route's
(ipnet, subnetmask), zero the route's gateway and decrement nref, and
change nothing when no element matches.  The route's back-pointer is
deliberately not cleared. -/
def unlinkroute (st : St) (ot : Option TId) (rid : RId) : St × List Ev :=
  match ot with
  | none => (st, [Ev.unlinkG none rid])
  | some tid =>
    let t := st.heapT tid
    match removeFirstMatch st.heapR (st.heapR rid) t.routes with
    | none => (st, [Ev.unlinkG (some tid) rid])
    | some rest =>
      ({ st with
          heapT := updT st.heapT tid { t with routes := rest, nref := t.nref - 1 },
          heapR := updR st.heapR rid { st.heapR rid with gateway := 0 } },
       [Ev.unlinkG (some tid) rid])

/-- collapse of main.c: a no-op unless the tunnel pointer is non-nil and
nref is zero, in which case the tunnel is removed from the tunnel index,
downtunnel is invoked, and its interface bit is cleared. -/
def collapse (st : St) (ot : Option TId) : St × List Ev :=
  match ot with
  | none => (st, [Ev.collapseG none])
  | some tid =>
    let t := st.heapT tid
    if t.nref = 0 then
      ({ st with
          tunnels := ipmapremove st.tunnels t.outer_remote 32,
          interfaces := st.interfaces.erase t.ifnum },
       [Ev.collapseG (some tid), Ev.downtunnelC tid])
    else (st, [Ev.collapseG (some tid)])

/-- The advertised address after the in-place normalization
response->ipaddr &= response->subnetmask of main.c. -/
def ripIp (resp : RIPResponse) : Nat := resp.ipaddr &&& resp.subnetmask

/-- The keylen used for all route and acceptance lookups of one response:
netmask2cidr converted to size_t. -/
def ripKl (resp : RIPResponse) : Nat := cidrKey (netmask2cidr resp.subnetmask)

/-- Tunnel lookup-or-create of ripresponse (main.c lines 652-661): find the
tunnel by next hop; if absent, mktunnel, alloctunif (lowest free
interface number, set its bit, name "gif<n>"), uptunnel, and insert into
the tunnel index keyed by the next hop at CIDR 32. -/
def ripTunnel (st : St) (resp : RIPResponse) (ip : Nat) : St × TId × List Ev :=
  match ipmapfind st.tunnels resp.nexthop 32 with
  | some tid => (st, tid, [])
  | none =>
    let ifn := nextbit st.interfaces
    let t := { mktunnel st.local_outer_addr resp.nexthop st.local_inner_addr ip with
               ifnum := ifn, ifname := "gif" ++ toString ifn }
    let tid := st.nextT
    ({ st with
        interfaces := insert ifn st.interfaces,
        heapT := updT st.heapT tid t,
        nextT := st.nextT + 1,
        tunnels := (ipmapinsert st.tunnels resp.nexthop 32 tid).1 },
     tid, [Ev.uptunnelC tid])

/-- The drop decision of the route-lookup block of ripresponse (main.c
lines 662-677): when the exact route is absent and the nearest covering
route is served by the same tunnel, the response is dropped. -/
def ripRouteDrops (st : St) (tid : TId) (ip kl : Nat) : Bool :=
  match ipmapfind st.routes ip kl with
  | some _ => false
  | none =>
    match ipmapnearest st.routes ip kl with
    | some cover => decide ((st.heapR cover).tunnel = some tid)
    | none => false

/-- The route lookup-or-create of ripresponse (main.c lines 662-684), taken
when the drop decision above is false: return the exact route if
present, otherwise allocate a fresh Route from the normalized address,
the netmask and the next hop and insert it into the routes map. -/
def ripRouteGet (st : St) (resp : RIPResponse) (ip kl : Nat) : St × RId :=
  match ipmapfind st.routes ip kl with
  | some rid => (st, rid)
  | none =>
    let r := mkroute ip resp.subnetmask resp.nexthop
    ({ st with
        heapR := updR st.heapR st.nextR r,
        routes := (ipmapinsert st.routes ip kl st.nextR).1,
        nextR := st.nextR + 1 },
     st.nextR)

/-- The kernel routing call of step 8: addroute when the route has no
tunnel yet, chroute when it is moving between tunnels. -/
def ripCallEv (old : Option TId) (rid : RId) (tid : TId) : Ev :=
  match old with
  | none => Ev.addrouteC rid tid
  | some _ => Ev.chrouteC rid tid

/-- Step 8 of ripresponse (main.c lines 685-700): when the route's tunnel
back-pointer differs from the response's tunnel, invoke the kernel
routing call (addroute or chroute), then unlinkroute from the old
tunnel, collapse the old tunnel, and linkroute to the new tunnel. -/
def ripLink (st : St) (tid : TId) (rid : RId) : St × List Ev :=
  if (st.heapR rid).tunnel = some tid then (st, [])
  else
    let old := (st.heapR rid).tunnel
    let uRes := unlinkroute st old rid
    let cRes := collapse uRes.1 old
    let lRes := linkroute cRes.1 tid rid
    (lRes.1, ripCallEv old rid tid :: (uRes.2 ++ cRes.2 ++ lRes.2))

/-- Step 9 of ripresponse: refresh the route's expiration time. -/
def setExpires (st : St) (rid : RId) (e : Int) : St :=
  { st with heapR := updR st.heapR rid { st.heapR rid with expires := e } }

/-- Route expiration timeout of main.c: seven days, in seconds. -/
def TIMEOUT : Int := 7 * 24 * 60 * 60

/-- ripresponse of main.c (lines 620-702): normalize, run the three drop
checks (self gateway, gateway inside subnet, acceptance policy), look up
or create the tunnel, run the covering-route drop check, look up or
create the route, reconcile the tunnel linkage, and refresh the
expiration time.  Returns the new state and the event trace. -/
def ripresponse (st : St) (resp : RIPResponse) (now : Int) : St × List Ev :=
  if resp.nexthop = st.local_outer_addr then (st, [])
  else if resp.nexthop &&& resp.subnetmask = ripIp resp then (st, [])
  else if ipmapnearest st.acceptable (ripIp resp) (ripKl resp) = some Policy.accept then
    let tRes := ripTunnel st resp (ripIp resp)
    if ripRouteDrops tRes.1 tRes.2.1 (ripIp resp) (ripKl resp) then (tRes.1, tRes.2.2)
    else
      let rRes := ripRouteGet tRes.1 resp (ripIp resp) (ripKl resp)
      let lRes := ripLink rRes.1 tRes.2.1 rRes.2
      (setExpires lRes.1 rRes.2 (now + TIMEOUT), tRes.2.2 ++ lRes.2)
  else (st, [])

/-- One destroy step of the expiration sweep (destroy of main.c): remove
the victim entry from the routes map, then rmroute, unlinkroute and
collapse through the route's tunnel back-pointer.  The kernel side of
rmroute (including the basis-rebase of sys.c) is modelled separately by
tunnel_rebase; destroy's effect on the core state is the removal and the
unlink/collapse pair. -/
def destroyOne (s : St) (e : (Nat × Nat) × RId) : St :=
  let s1 := { s with routes := ipmapremove s.routes e.1.1 e.1.2 }
  let ot := (s1.heapR e.2).tunnel
  let s2 := (unlinkroute s1 ot e.2).1
  (collapse s2 ot).1

/-- walkexpired of main.c: collect every route whose expires is at or
before now into the deletion set, then destroy each one. -/
def walkexpired (st : St) (now : Int) : St :=
  (st.routes.filter (fun e => decide ((st.heapR e.2).expires ≤ now))).foldl destroyOne st

/-- The response-processing loop of riptide: fold ripresponse over the
parsed responses of one datagram, all sharing the same now. -/
def processList (st : St) (l : List RIPResponse) (now : Int) : St :=
  l.foldl (fun s x => (ripresponse s x now).1) st

/-- riptide of main.c (state part): handle every response of the datagram,
then run the expiration sweep with the same now. -/
def riptide (st : St) (l : List RIPResponse) (now : Int) : St :=
  walkexpired (processList st l now) now

/-- Event trace entries of the freebsd/sys.c adapter layer: deleting and
re-adding the tunnel's inner addresses, invoking the addroute adapter
function, and the actual RTM_ADD routing-socket write it performs when
the route is not the tunnel's implicit basis host route. -/
inductive SysEv where
  | cfgInnerDel
  | cfgInnerAdd
  | addrtInvoke (r : RId)
  | rtmAdd (r : RId)
  deriving Repr, DecidableEq

/-- addroute of sys.c, as invoked with the given tunnel: it returns without
writing to the routing socket exactly when the route is the /32 host
route to the tunnel's inner_remote (the kernel installed it already). -/
def sysaddroute (h : RId → Route) (t : Tunnel) (rid : RId) : List SysEv :=
  if (h rid).subnetmask = hostmask ∧ (h rid).ipnet = t.inner_remote then
    [SysEv.addrtInvoke rid]
  else
    [SysEv.addrtInvoke rid, SysEv.rtmAdd rid]

/-- tunnel_rebase of sys.c (lines 794-839): delete the inner addresses;
if nref is 1 return without reconfiguring; otherwise pick the first
linked route other than the basis as the new basis, point inner_remote
at its network, re-add the inner addresses, and invoke addroute for
every linked route other than the old and the new basis.  The C
function asserts that a new basis exists; the unreachable none branch
returns unchanged. -/
def tunnel_rebase (h : RId → Route) (t : Tunnel) (rid : RId) : Tunnel × List SysEv :=
  if t.nref = 1 then (t, [SysEv.cfgInnerDel])
  else
    match t.routes.find? (fun r => r != rid) with
    | none => (t, [SysEv.cfgInnerDel])
    | some newrt =>
      let t' := { t with inner_remote := (h newrt).ipnet }
      let adds := (t.routes.filter (fun r => r != rid && r != newrt)).foldl
        (fun acc r => acc ++ sysaddroute h t' r) []
      (t', SysEv.cfgInnerDel :: SysEv.cfgInnerAdd :: adds)

/-- tunnelfindbydest of main.c: the first tunnel in the index whose
inner_remote equals the destination address. -/
def findByDest (st : St) (dst : Nat) : Option TId :=
  ((st.tunnels.find? (fun e => (st.heapT e.2).inner_remote == dst)).map (·.2))

/-- tunnelfindbyname of main.c: the first tunnel in the index whose ifname
equals the given interface name. -/
def findByName (st : St) (name : String) : Option TId :=
  ((st.tunnels.find? (fun e => (st.heapT e.2).ifname == name)).map (·.2))

/-- learn_interface_callback of main.c: skip statically owned interfaces;
otherwise check the assert that the bit is not yet set and that the
acceptance policy accepts the inner destination, synthesize a Tunnel
with the discovered endpoints, insert it keyed by outer_remote, and set
its interface bit.  none models the fatal (or assert-failing) exits. -/
def learnIface (st : St) (name : String) (num ol orr il ir : Nat) : Option St :=
  if num ∈ st.staticifs then some st
  else if num ∈ st.interfaces then none
  else if ipmapnearest st.acceptable ir 32 ≠ some Policy.accept then none
  else
    let t := { mktunnel ol orr il ir with ifnum := num, ifname := name }
    let tid := st.nextT
    let ins := ipmapinsert st.tunnels orr 32 tid
    if ins.2 ≠ tid then none
    else some { st with
      tunnels := ins.1,
      heapT := updT st.heapT tid t,
      nextT := st.nextT + 1,
      interfaces := insert num st.interfaces }

/-- learn_route_callback of main.c: reject non-contiguous masks (fatal);
find the tunnel by gateway address or by interface name; routes with no
matching tunnel are ignored unless the policy accepts them (fatal), and
a matching tunnel with a rejected network is fatal; otherwise synthesize
a Route, insert it (a duplicate with different attributes is fatal) and
link it to the tunnel. -/
def learnRoute (st : St) (ipnet mask : Nat) (isaddr : Bool) (dst : Nat)
    (dstif : String) : Option St :=
  let cidr := netmask2cidr mask
  if cidr = -1 then none
  else
    let tun? := if isaddr then findByDest st dst else findByName st dstif
    let acc := ipmapnearest st.acceptable ipnet (cidrKey cidr)
    match tun? with
    | none => if acc = some Policy.accept then none else some st
    | some tid =>
      if acc ≠ some Policy.accept then none
      else
        let r := mkroute ipnet mask (st.heapT tid).outer_remote
        let rid := st.nextR
        let ins := ipmapinsert st.routes ipnet (cidrKey cidr) rid
        if ins.2 = rid then
          let st' := { st with
            routes := ins.1,
            heapR := updR st.heapR rid r,
            nextR := st.nextR + 1 }
          some (linkroute st' tid rid).1
        else
          let ex := st.heapR ins.2
          if ex.ipnet = r.ipnet ∧ ex.subnetmask = r.subnetmask ∧ ex.gateway = r.gateway then
            some st
          else none

/-- Modelled from the spec: insertion into the top-down traversal order of
ipmapdotopdown, placing an entry after every entry of smaller or equal
keylen, so a covering parent prefix is visited strictly before the
entries it covers (the section 4.1 walk_topdown guarantee). -/
def insEntry (e : (Nat × Nat) × α) : List ((Nat × Nat) × α) → List ((Nat × Nat) × α)
  | [] => [e]
  | x :: xs => if x.1.2 ≤ e.1.2 then x :: insEntry e xs else e :: x :: xs

/-- Modelled from the spec: the entry sequence visited by ipmapdotopdown. -/
def topdownOrder (m : IPMap α) : List ((Nat × Nat) × α) :=
  m.foldr insEntry []

/-- fix_overlaps of main.c for one tunnel: build the scratch coverage map
of its routes keyed by (ipnet, cidr), walk it top-down with
unlink_redundant, which unlinks a route whenever the immediate parent
(the last visited route that was kept) covers it through the parent's
own mask, and keeps it as the new parent otherwise. -/
def fixOne (st : St) (tid : TId) : St :=
  let coverage := (st.heapT tid).routes.foldl
    (fun m rid =>
      (ipmapinsert m (st.heapR rid).ipnet (cidrKey (netmask2cidr (st.heapR rid).subnetmask)) rid).1)
    ([] : IPMap RId)
  ((topdownOrder coverage).foldl
    (fun (acc : St × Option RId) e =>
      match acc.2 with
      | some p =>
        if (acc.1.heapR p).ipnet &&& (acc.1.heapR p).subnetmask =
           (acc.1.heapR e.2).ipnet &&& (acc.1.heapR p).subnetmask then
          ((unlinkroute acc.1 (some tid) e.2).1, acc.2)
        else (acc.1, some e.2)
      | none => (acc.1, some e.2))
    (st, none)).1

/-- The fix_overlaps pass of learnsys: run fixOne over every tunnel of the
index (ipmapdo over the tunnels map). -/
def fixOverlaps (st : St) : St :=
  st.tunnels.foldl (fun s e => fixOne s e.2) st

/-- A default Route record (the all-zero heap cell). -/
def route0 : Route := mkroute 0 0 0

/-- A default Tunnel record (the all-zero heap cell). -/
def tunnel0 : Tunnel := mktunnel 0 0 0 0

/-- init of main.c, after option parsing: empty maps, the interfaces
bitvec seeded with the statically owned interface numbers (-s), and the
acceptance policy built from the -A / -I prefixes, defaulting to a
single accept-everything entry when none are given. -/
def initSt (lo li : Nat) (static : Finset Nat) (accSpecs : List ((Nat × Nat) × Policy)) : St :=
  { local_outer_addr := lo,
    local_inner_addr := li,
    acceptable :=
      if accSpecs.isEmpty then [((0, 0), Policy.accept)]
      else accSpecs.foldl (fun m e => (ipmapinsert m e.1.1 e.1.2 e.2).1) [],
    routes := [],
    tunnels := [],
    interfaces := static,
    staticifs := static,
    heapR := fun _ => route0,
    heapT := fun _ => tunnel0,
    nextR := 0,
    nextT := 0 }

/-- A small initialized daemon state used for concrete instantiations:
local outer 198.51.100.1, local inner 44.0.0.1, no static interfaces,
default accept-all policy. -/
def demoSt : St := initSt 0xC6336401 0x2C000001 ∅ []

/-- A well-formed advertisement: 10.1.0.0/16 via 203.0.113.5. -/
def demoResp : RIPResponse :=
  { ipaddr := 0x0A010000, subnetmask := 0xFFFF0000, nexthop := 0xCB007105 }

/-- The state after processing demoResp at time 5: one tunnel (id 0, gif0)
carrying one route (id 0). -/
def demoSt1 : St := (ripresponse demoSt demoResp 5).1

/-- A RIP response carrying the non-contiguous netmask 0xFF00FF00. -/
def badMaskResp : RIPResponse :=
  { ipaddr := 0x2C000000, subnetmask := 0xFF00FF00, nexthop := 0x01020304 }

/-- The discovery scenario of spec scenario 6: kernel holds tunnel gif0
(outer remote 203.0.113.5, inner remote 10.3.0.5) plus its implicit
host route 10.3.0.5/32 and an explicit 10.3.0.0/24, both through gif0;
then the fix_overlaps pass runs. -/
def discoverScenario : Option St :=
  (learnIface demoSt "gif0" 0 0xC6336401 0xCB007105 0x2C000001 0x0A030005).bind fun s1 =>
  (learnRoute s1 0x0A030005 0xFFFFFFFF false 0 "gif0").bind fun s2 =>
  (learnRoute s2 0x0A030000 0xFFFFFF00 false 0 "gif0").map fun s3 =>
  fixOverlaps s3

/-- The final state of the discovery scenario (defaulting to demoSt, which
the scenario never hits since it succeeds). -/
def discoverFinal : St := discoverScenario.getD demoSt

/-- The heap for the rebase scenario of spec scenario 5: route 0 is
10.9.0.0/24 (the basis) and route 1 is 10.9.1.0/24. -/
def rebaseHeap : RId → Route := fun i =>
  if i = 0 then mkroute 0x0A090000 0xFFFFFF00 9 else mkroute 0x0A090100 0xFFFFFF00 9

/-- The tunnel for the rebase scenario: inner_remote 10.9.0.0 with the two
routes linked. -/
def rebaseTun : Tunnel :=
  { mktunnel 1 2 3 0x0A090000 with routes := [0, 1], nref := 2 }

/-- The reference-count invariant of the tunnel graph: every tunnel in the
index has nref equal to the length of its linked route list. -/
def TunnelInv (st : St) : Prop :=
  ∀ e ∈ st.tunnels, (st.heapT e.2).nref = ((st.heapT e.2).routes.length : Int)

/-- One mutation of the tunnel graph, at the granularity of the main.c
operations touching it: linkroute, unlinkroute, collapse and the
tunnel-creation stage of ripresponse. -/
inductive GraphStep : St → St → Prop where
  | link (st : St) (tid : TId) (rid : RId) : GraphStep st (linkroute st tid rid).1
  | unlink (st : St) (ot : Option TId) (rid : RId) :
      GraphStep st (unlinkroute st ot rid).1
  | coll (st : St) (ot : Option TId) : GraphStep st (collapse st ot).1
  | spawn (st : St) (resp : RIPResponse) (ip : Nat) :
      GraphStep st (ripTunnel st resp ip).1

/-- States reachable from some initialized state through graph mutations. -/
def GraphReachable (st : St) : Prop :=
  ∃ lo li static acc, Relation.ReflTransGen GraphStep (initSt lo li static acc) st

/-- The interface numbers of the tunnels currently in the tunnel index. -/
def tunnelIfnumList (st : St) : List Nat :=
  st.tunnels.map (fun e => (st.heapT e.2).ifnum)

/-- The same interface numbers as a set. -/
def tunnelIfnums (st : St) : Finset Nat := (tunnelIfnumList st).toFinset

/-- The inductive invariant tying the interfaces bitvec to the tunnel
index: the bitvec is the statically owned numbers plus the tunnels'
numbers; no tunnel sits on a static number; index keys agree with
outer_remote at CIDR 32; tunnel ids are below the allocation counter;
and both the interface numbers and the (masked) keys are duplicate
free. -/
structure SysInv (st : St) : Prop where
  bits : st.interfaces = st.staticifs ∪ tunnelIfnums st
  nostatic : ∀ e ∈ st.tunnels, (st.heapT e.2).ifnum ∉ st.staticifs
  keys : ∀ e ∈ st.tunnels, e.1 = ((st.heapT e.2).outer_remote, 32)
  fresh : ∀ e ∈ st.tunnels, e.2 < st.nextT
  ifnodup : (tunnelIfnumList st).Nodup
  keynodup : (st.tunnels.map (fun e => e.1.1 &&& hostmask)).Nodup

/-- State mutations at the granularity of the main.c operations that touch
the tunnel index, the interface bitvec or the heaps; collapse carries
its assert of main.c (the removed index entry is the collapsed
tunnel's own entry). -/
inductive Step9 : St → St → Prop where
  | tun (st : St) (resp : RIPResponse) (ip : Nat) : Step9 st (ripTunnel st resp ip).1
  | rts (st : St) (resp : RIPResponse) (ip kl : Nat) :
      Step9 st (ripRouteGet st resp ip kl).1
  | lnk (st : St) (tid : TId) (rid : RId) : Step9 st (linkroute st tid rid).1
  | ulk (st : St) (ot : Option TId) (rid : RId) : Step9 st (unlinkroute st ot rid).1
  | coll (st : St) (tid : TId)
      (hfind : ipmapfind st.tunnels (st.heapT tid).outer_remote 32 = some tid) :
      Step9 st (collapse st (some tid)).1
  | rexp (st : St) (rid : RId) (e : Int) : Step9 st (setExpires st rid e)

/-- States reachable from some initialized state through Step9 moves. -/
def Reach9 (st : St) : Prop :=
  ∃ lo li static acc, Relation.ReflTransGen Step9 (initSt lo li static acc) st

/-- The semantic key of an IPMap entry: its first keylen bits together
with the keylen. -/
def keyOf (e : (Nat × Nat) × α) : Nat × Nat := (e.1.1 &&& prefMask e.1.2, e.1.2)

/-- Well-formedness of an IPMap as built by the daemon: no two entries
share a semantic key (insertion only happens after a failed exact
lookup). -/
def ipNodup (m : IPMap α) : Prop := (m.map keyOf).Nodup

/- ----------------------------------------------------------------- -/
/- Frame lemmas for the reconciler stages.                            -/
/- ----------------------------------------------------------------- -/

theorem ripTunnel_routes (st : St) (resp : RIPResponse) (ip : Nat) :
    (ripTunnel st resp ip).1.routes = st.routes := by
  unfold ripTunnel; split <;> rfl

theorem ripTunnel_heapR (st : St) (resp : RIPResponse) (ip : Nat) :
    (ripTunnel st resp ip).1.heapR = st.heapR := by
  unfold ripTunnel; split <;> rfl

theorem ripTunnel_nextR (st : St) (resp : RIPResponse) (ip : Nat) :
    (ripTunnel st resp ip).1.nextR = st.nextR := by
  unfold ripTunnel; split <;> rfl

theorem ripTunnel_found (st : St) (resp : RIPResponse) (ip : Nat) (tid : TId)
    (h : ipmapfind st.tunnels resp.nexthop 32 = some tid) :
    ripTunnel st resp ip = (st, tid, []) := by
  unfold ripTunnel; rw [h]

theorem unlinkroute_routesmap (st : St) (ot : Option TId) (rid : RId) :
    (unlinkroute st ot rid).1.routes = st.routes := by
  unfold unlinkroute
  match ot with
  | none => rfl
  | some tid => dsimp only; split <;> rfl

theorem unlinkroute_heapT_ne (st : St) (t' tid : TId) (rid : RId) (h : t' ≠ tid) :
    (unlinkroute st (some t') rid).1.heapT tid = st.heapT tid := by
  unfold unlinkroute
  dsimp only
  split
  · rfl
  · simp [updT, Ne.symm h]

theorem unlinkroute_none (st : St) (rid : RId) :
    (unlinkroute st none rid).1 = st := rfl

theorem collapse_heapT (st : St) (ot : Option TId) :
    (collapse st ot).1.heapT = st.heapT := by
  unfold collapse
  match ot with
  | none => rfl
  | some tid => dsimp only; split <;> rfl

theorem collapse_heapR (st : St) (ot : Option TId) :
    (collapse st ot).1.heapR = st.heapR := by
  unfold collapse
  match ot with
  | none => rfl
  | some tid => dsimp only; split <;> rfl

theorem collapse_routes (st : St) (ot : Option TId) :
    (collapse st ot).1.routes = st.routes := by
  unfold collapse
  match ot with
  | none => rfl
  | some tid => dsimp only; split <;> rfl

theorem linkroute_routesmap (st : St) (tid : TId) (rid : RId) :
    (linkroute st tid rid).1.routes = st.routes := rfl

theorem setExpires_routes (st : St) (rid : RId) (e : Int) :
    (setExpires st rid e).routes = st.routes := rfl

theorem setExpires_heapR_tunnel (st : St) (rid r : RId) (e : Int) :
    ((setExpires st rid e).heapR r).tunnel = (st.heapR r).tunnel := by
  unfold setExpires updR
  by_cases h : r = rid <;> simp [h]

theorem setExpires_heapR_gateway (st : St) (rid r : RId) (e : Int) :
    ((setExpires st rid e).heapR r).gateway = (st.heapR r).gateway := by
  unfold setExpires updR
  by_cases h : r = rid <;> simp [h]

theorem setExpires_heapT (st : St) (rid : RId) (e : Int) :
    (setExpires st rid e).heapT = st.heapT := rfl

theorem ipmapfind_none_find? {α : Type} (m : IPMap α) (k l : Nat)
    (h : ipmapfind m k l = none) : m.find? (entMatch k l) = none := by
  unfold ipmapfind at h
  exact Option.map_eq_none'.mp h

theorem ipmapinsert_of_none {α : Type} (m : IPMap α) (k l : Nat) (v : α)
    (h : ipmapfind m k l = none) : ipmapinsert m k l v = (((k, l), v) :: m, v) := by
  unfold ipmapinsert
  rw [ipmapfind_none_find? m k l h]

theorem ipmapfind_cons_self {α : Type} (m : IPMap α) (k l : Nat) (v : α) :
    ipmapfind (((k, l), v) :: m) k l = some v := by
  simp [ipmapfind, entMatch, List.find?_cons]

theorem ripRouteGet_of_none (s : St) (resp : RIPResponse) (ip kl : Nat)
    (h : ipmapfind s.routes ip kl = none) :
    ripRouteGet s resp ip kl =
      ({ s with
          heapR := updR s.heapR s.nextR (mkroute ip resp.subnetmask resp.nexthop),
          routes := ((ip, kl), s.nextR) :: s.routes,
          nextR := s.nextR + 1 }, s.nextR) := by
  unfold ripRouteGet
  rw [h, ipmapinsert_of_none s.routes ip kl s.nextR h]

theorem updR_self (h : RId → Route) (i : RId) (r : Route) : updR h i r i = r := by
  simp [updR]

theorem updT_self (h : TId → Tunnel) (i : TId) (t : Tunnel) : updT h i t i = t := by
  simp [updT]

/- ----------------------------------------------------------------- -/
/- Claim theorems.                                                    -/
/- ----------------------------------------------------------------- -/

/-- C10: collapse is a total no-op when the tunnel pointer is nil or when
the tunnel's nref is positive: the state (tunnel index, interface
bitvec, heaps) is unchanged and no downtunnel kernel call is made; in
particular the reconciler's unconditional unlinkroute plus collapse
through the back-pointer of a freshly created, never-linked route
(tunnel back-pointer nil) leaves all state unchanged. -/
theorem collapse_nil_or_referenced_noop :
    (∀ st : St, (collapse st none).1 = st ∧
      ∀ t, Ev.downtunnelC t ∉ (collapse st none).2) ∧
    (∀ (st : St) (tid : TId), 0 < (st.heapT tid).nref →
      (collapse st (some tid)).1 = st ∧
      ∀ t, Ev.downtunnelC t ∉ (collapse st (some tid)).2) ∧
    (∀ (st : St) (rid : RId), (st.heapR rid).tunnel = none →
      (collapse (unlinkroute st ((st.heapR rid).tunnel) rid).1
        ((st.heapR rid).tunnel)).1 = st) := by
  refine ⟨fun st => ⟨rfl, ?_⟩, fun st tid h => ?_, fun st rid h => ?_⟩
  · intro t ht
    simp [collapse] at ht
  · have hne : (st.heapT tid).nref ≠ 0 := by omega
    refine ⟨?_, ?_⟩
    · simp [collapse, hne]
    · intro t ht
      simp [collapse, hne] at ht
  · rw [h]
    rfl

/-- Witness for C10: the positive-nref case at the concrete one-tunnel
state demoSt1 and the nil-back-pointer case at demoSt. -/
theorem collapse_nil_or_referenced_noop_witness :
    (0 < ((demoSt1).heapT 0).nref ∧ (collapse demoSt1 (some 0)).1 = demoSt1) ∧
    ((demoSt.heapR 0).tunnel = none ∧
      (collapse (unlinkroute demoSt ((demoSt.heapR 0).tunnel) 0).1
        ((demoSt.heapR 0).tunnel)).1 = demoSt) :=
  ⟨⟨by decide, (collapse_nil_or_referenced_noop.2.1 demoSt1 0 (by decide)).1⟩,
   ⟨by decide, collapse_nil_or_referenced_noop.2.2 demoSt 0 (by decide)⟩⟩

theorem ripresponse_dropped (st : St) (resp : RIPResponse) (now : Int)
    (h : resp.nexthop = st.local_outer_addr ∨
         resp.nexthop &&& resp.subnetmask = ripIp resp ∨
         ipmapnearest st.acceptable (ripIp resp) (ripKl resp) ≠ some Policy.accept) :
    ripresponse st resp now = (st, []) := by
  unfold ripresponse
  rcases h with h | h | h
  · rw [if_pos h]
  · by_cases h1 : resp.nexthop = st.local_outer_addr
    · rw [if_pos h1]
    · rw [if_neg h1, if_pos h]
  · by_cases h1 : resp.nexthop = st.local_outer_addr
    · rw [if_pos h1]
    · by_cases h2 : resp.nexthop &&& resp.subnetmask = ripIp resp
      · rw [if_neg h1, if_pos h2]
      · rw [if_neg h1, if_neg h2, if_neg h]

/-- C8: a RIP response dropped by the per-packet reject checks of
ripresponse (next hop equal to the local outer address, next hop inside
the advertised subnet after normalization, or acceptance policy whose
nearest match is not ACCEPT) leaves the whole state unchanged (routes
map, tunnels map, interface bitvec included) and emits no event, in
particular no kernel call. -/
theorem ripresponse_reject_checks_noop (st : St) (resp : RIPResponse) (now : Int)
    (h : resp.nexthop = st.local_outer_addr ∨
         resp.nexthop &&& resp.subnetmask = ripIp resp ∨
         ipmapnearest st.acceptable (ripIp resp) (ripKl resp) ≠ some Policy.accept) :
    ripresponse st resp now = (st, []) :=
  ripresponse_dropped st resp now h

/-- Witness for C8 at a concrete self-gateway response. -/
theorem ripresponse_reject_checks_noop_witness :
    ({ ipaddr := 0x0A010000, subnetmask := 0xFFFF0000,
       nexthop := 0xC6336401 } : RIPResponse).nexthop = demoSt.local_outer_addr ∧
    ripresponse demoSt
      { ipaddr := 0x0A010000, subnetmask := 0xFFFF0000, nexthop := 0xC6336401 } 0 =
      (demoSt, []) :=
  ⟨by decide,
   ripresponse_reject_checks_noop demoSt
     { ipaddr := 0x0A010000, subnetmask := 0xFFFF0000, nexthop := 0xC6336401 } 0
     (Or.inl (by decide))⟩

/-- C4, evaluated at the failing input: a response whose netmask
0xFF00FF00 is not a contiguous prefix mask (netmask2cidr returns -1) is
not rejected by ripresponse.  Against the freshly initialized state it
creates and inserts a tunnel, inserts a route keyed by the size_t
conversion of cidr -1, links it, and performs the addroute kernel
routing call — contradicting the specified step-1 rejection. -/
theorem ripresponse_noncontiguous_mask_processed :
    netmask2cidr badMaskResp.subnetmask = -1 ∧
    ripKl badMaskResp = 2 ^ 64 - 1 ∧
    (ripresponse demoSt badMaskResp 100).1.tunnels = [((0x01020304, 32), 0)] ∧
    ipmapfind (ripresponse demoSt badMaskResp 100).1.routes
      (ripIp badMaskResp) (2 ^ 64 - 1) = some 0 ∧
    (ripresponse demoSt badMaskResp 100).2.filter isRoutingCall =
      [Ev.addrouteC 0 0] := by
  refine ⟨by decide, by decide, by decide, by decide, by decide⟩

theorem linkroute_heapT_self (st : St) (tid : TId) (rid : RId) :
    (linkroute st tid rid).1.heapT tid =
      { st.heapT tid with
          routes := rid :: (st.heapT tid).routes,
          nref := (st.heapT tid).nref + 1 } := by
  simp [linkroute, updT]

theorem linkroute_heapR_self (st : St) (tid : TId) (rid : RId) :
    (linkroute st tid rid).1.heapR rid =
      { st.heapR rid with
          tunnel := some tid,
          gateway := (st.heapT tid).outer_remote } := by
  simp [linkroute, updR]

theorem setExpires_heapR_self (st : St) (rid : RId) (e : Int) :
    (setExpires st rid e).heapR rid = { st.heapR rid with expires := e } := by
  simp [setExpires, updR]

/-- When the route's tunnel back-pointer is nil, step 8 issues the addroute
call and the unlink and collapse calls are no-ops on a nil pointer. -/
theorem ripLink_of_none (st : St) (tid : TId) (rid : RId)
    (h : (st.heapR rid).tunnel = none) :
    ripLink st tid rid = ((linkroute st tid rid).1,
      [Ev.addrouteC rid tid, Ev.unlinkG none rid, Ev.collapseG none,
       Ev.linkG tid rid]) := by
  unfold ripLink
  rw [h]
  rw [if_neg (by simp : ¬ (none : Option TId) = some tid)]
  rfl

/-- Symbolic form of ripresponse when the three reject checks pass and the
covering-route drop does not apply: the tunnel stage, the route stage,
step 8 and the expiration refresh compose, and the traces concatenate. -/
theorem ripresponse_noDrop_eq (st : St) (resp : RIPResponse) (now : Int)
    (h1 : resp.nexthop ≠ st.local_outer_addr)
    (h2 : resp.nexthop &&& resp.subnetmask ≠ ripIp resp)
    (h3 : ipmapnearest st.acceptable (ripIp resp) (ripKl resp) = some Policy.accept)
    (hdrops : ripRouteDrops (ripTunnel st resp (ripIp resp)).1
      (ripTunnel st resp (ripIp resp)).2.1 (ripIp resp) (ripKl resp) = false) :
    ripresponse st resp now =
      (setExpires (ripLink (ripRouteGet (ripTunnel st resp (ripIp resp)).1 resp
            (ripIp resp) (ripKl resp)).1 (ripTunnel st resp (ripIp resp)).2.1
            (ripRouteGet (ripTunnel st resp (ripIp resp)).1 resp
              (ripIp resp) (ripKl resp)).2).1
          (ripRouteGet (ripTunnel st resp (ripIp resp)).1 resp
            (ripIp resp) (ripKl resp)).2 (now + TIMEOUT),
       (ripTunnel st resp (ripIp resp)).2.2 ++
        (ripLink (ripRouteGet (ripTunnel st resp (ripIp resp)).1 resp
            (ripIp resp) (ripKl resp)).1 (ripTunnel st resp (ripIp resp)).2.1
            (ripRouteGet (ripTunnel st resp (ripIp resp)).1 resp
              (ripIp resp) (ripKl resp)).2).2) := by
  unfold ripresponse
  rw [if_neg h1, if_neg h2, if_pos h3]
  dsimp only
  rw [hdrops]
  simp

/-- Behaviour of the create-and-link tail on a state whose routes map has
no exact entry for the advertised prefix: the fresh route id, its fields
after linking and refreshing, and its membership in the tunnel's list. -/
theorem createLink_props (s1 : St) (resp : RIPResponse) (tid : TId) (ip kl : Nat)
    (now : Int) (h : ipmapfind s1.routes ip kl = none) :
    (ripRouteGet s1 resp ip kl).2 = s1.nextR ∧
    ipmapfind (setExpires (ripLink (ripRouteGet s1 resp ip kl).1 tid
        (ripRouteGet s1 resp ip kl).2).1 (ripRouteGet s1 resp ip kl).2
        (now + TIMEOUT)).routes ip kl = some s1.nextR ∧
    ((setExpires (ripLink (ripRouteGet s1 resp ip kl).1 tid
        (ripRouteGet s1 resp ip kl).2).1 (ripRouteGet s1 resp ip kl).2
        (now + TIMEOUT)).heapR s1.nextR).ipnet = ip ∧
    ((setExpires (ripLink (ripRouteGet s1 resp ip kl).1 tid
        (ripRouteGet s1 resp ip kl).2).1 (ripRouteGet s1 resp ip kl).2
        (now + TIMEOUT)).heapR s1.nextR).subnetmask = resp.subnetmask ∧
    ((setExpires (ripLink (ripRouteGet s1 resp ip kl).1 tid
        (ripRouteGet s1 resp ip kl).2).1 (ripRouteGet s1 resp ip kl).2
        (now + TIMEOUT)).heapR s1.nextR).tunnel = some tid ∧
    s1.nextR ∈ ((setExpires (ripLink (ripRouteGet s1 resp ip kl).1 tid
        (ripRouteGet s1 resp ip kl).2).1 (ripRouteGet s1 resp ip kl).2
        (now + TIMEOUT)).heapT tid).routes := by
  rw [ripRouteGet_of_none s1 resp ip kl h]
  dsimp only
  have hOld : (((⟨s1.local_outer_addr, s1.local_inner_addr, s1.acceptable,
      ((ip, kl), s1.nextR) :: s1.routes, s1.tunnels, s1.interfaces, s1.staticifs,
      updR s1.heapR s1.nextR (mkroute ip resp.subnetmask resp.nexthop), s1.heapT,
      s1.nextR + 1, s1.nextT⟩ : St)).heapR s1.nextR).tunnel = none := by
    dsimp only
    rw [updR_self]
    rfl
  rw [ripLink_of_none _ tid s1.nextR hOld]
  refine ⟨rfl, ?_, ?_, ?_, ?_, ?_⟩
  · rw [setExpires_routes, linkroute_routesmap]
    exact ipmapfind_cons_self _ _ _ _
  · rw [setExpires_heapR_self, linkroute_heapR_self]
    dsimp only
    rw [updR_self]
    rfl
  · rw [setExpires_heapR_self, linkroute_heapR_self]
    dsimp only
    rw [updR_self]
    rfl
  · rw [setExpires_heapR_self, linkroute_heapR_self]
  · rw [setExpires_heapT, linkroute_heapT_self]
    exact List.mem_cons_self _ _

theorem ripTunnel_ev_filter_routing (st : St) (resp : RIPResponse) (ip : Nat) :
    ((ripTunnel st resp ip).2.2).filter isRoutingCall = [] := by
  unfold ripTunnel; split <;> rfl

theorem ripTunnel_ev_filter_graph (st : St) (resp : RIPResponse) (ip : Nat) :
    ((ripTunnel st resp ip).2.2).filter isGraphEv = [] := by
  unfold ripTunnel; split <;> rfl

theorem unlinkroute_ev (st : St) (ot : Option TId) (rid : RId) :
    (unlinkroute st ot rid).2 = [Ev.unlinkG ot rid] := by
  unfold unlinkroute
  match ot with
  | none => rfl
  | some tid => dsimp only; split <;> rfl

theorem collapse_ev_some (st : St) (tid : TId) :
    ∃ dtl, (collapse st (some tid)).2 = Ev.collapseG (some tid) :: dtl ∧
      dtl.filter isRoutingCall = [] ∧ dtl.filter isGraphEv = [] := by
  unfold collapse
  dsimp only
  split
  · exact ⟨[Ev.downtunnelC tid], rfl, rfl, rfl⟩
  · exact ⟨[], rfl, rfl, rfl⟩

/-- When the route's tunnel back-pointer is some other tunnel, step 8
issues the chroute call, unlinks from and collapses the old tunnel, and
links to the new one. -/
theorem ripLink_of_some (st : St) (tid t' : TId) (rid : RId)
    (h : (st.heapR rid).tunnel = some t') (hne : t' ≠ tid) :
    ripLink st tid rid =
      ((linkroute (collapse (unlinkroute st (some t') rid).1 (some t')).1 tid rid).1,
       Ev.chrouteC rid tid ::
        ((unlinkroute st (some t') rid).2 ++
         (collapse (unlinkroute st (some t') rid).1 (some t')).2 ++
         (linkroute (collapse (unlinkroute st (some t') rid).1 (some t')).1 tid rid).2)) := by
  unfold ripLink
  rw [h]
  rw [if_neg (fun hh : some t' = some tid => hne (Option.some.inj hh))]
  rfl

/-- Shape of the final state after linking the route to the new tunnel and
refreshing its expiration, for any intermediate state C agreeing with
st2 on the new tunnel's record: the route is linked exactly once, its
back-pointer is the new tunnel, and its gateway is the tunnel's
outer_remote. -/
theorem linkTail_props (st2 C : St) (tid : TId) (rid : RId) (e : Int)
    (hT : C.heapT tid = st2.heapT tid) (h6 : rid ∉ (st2.heapT tid).routes) :
    ((setExpires (linkroute C tid rid).1 rid e).heapT tid).routes.count rid = 1 ∧
    ((setExpires (linkroute C tid rid).1 rid e).heapR rid).gateway =
      ((setExpires (linkroute C tid rid).1 rid e).heapT tid).outer_remote ∧
    ((setExpires (linkroute C tid rid).1 rid e).heapR rid).tunnel = some tid := by
  refine ⟨?_, ?_, ?_⟩
  · rw [setExpires_heapT, linkroute_heapT_self, hT]
    dsimp only
    rw [List.count_cons_self, List.count_eq_zero.mpr h6]
  · rw [setExpires_heapR_self, linkroute_heapR_self, setExpires_heapT,
      linkroute_heapT_self, hT]
  · rw [setExpires_heapR_self, linkroute_heapR_self]

/-- C1: for a response surviving all drop checks whose looked-up-or-created
route has a tunnel back-pointer different from the looked-up-or-created
tunnel, ripresponse performs exactly one kernel routing call (addroute
when the back-pointer is nil, chroute otherwise), that call precedes
every graph mutation, the graph-mutation calls are exactly unlinkroute
on the old tunnel, collapse of the old tunnel, then linkroute to the
new tunnel, and on return the route is linked exactly once to the new
tunnel with its gateway equal to the tunnel's outer_remote. -/
theorem ripresponse_reconcile_order (st : St) (resp : RIPResponse) (now : Int)
    (st1 : St) (tid : TId) (ev1 : List Ev) (st2 : St) (rid : RId)
    (h1 : resp.nexthop ≠ st.local_outer_addr)
    (h2 : resp.nexthop &&& resp.subnetmask ≠ ripIp resp)
    (h3 : ipmapnearest st.acceptable (ripIp resp) (ripKl resp) = some Policy.accept)
    (hT : ripTunnel st resp (ripIp resp) = (st1, tid, ev1))
    (hdrops : ripRouteDrops st1 tid (ripIp resp) (ripKl resp) = false)
    (hG : ripRouteGet st1 resp (ripIp resp) (ripKl resp) = (st2, rid))
    (h5 : (st2.heapR rid).tunnel ≠ some tid)
    (h6 : rid ∉ (st2.heapT tid).routes) :
    (ripresponse st resp now).2.filter isRoutingCall =
      [ripCallEv (st2.heapR rid).tunnel rid tid] ∧
    (ripresponse st resp now).2.filter isGraphEv =
      [Ev.unlinkG (st2.heapR rid).tunnel rid, Ev.collapseG (st2.heapR rid).tunnel,
       Ev.linkG tid rid] ∧
    (∃ pre post, (ripresponse st resp now).2 =
        pre ++ ripCallEv (st2.heapR rid).tunnel rid tid :: post ∧
      pre.filter isRoutingCall = [] ∧ pre.filter isGraphEv = []) ∧
    ((ripresponse st resp now).1.heapT tid).routes.count rid = 1 ∧
    ((ripresponse st resp now).1.heapR rid).gateway =
      ((ripresponse st resp now).1.heapT tid).outer_remote ∧
    ((ripresponse st resp now).1.heapR rid).tunnel = some tid := by
  have hev1R : ev1.filter isRoutingCall = [] := by
    have h := ripTunnel_ev_filter_routing st resp (ripIp resp)
    rw [hT] at h
    exact h
  have hev1G : ev1.filter isGraphEv = [] := by
    have h := ripTunnel_ev_filter_graph st resp (ripIp resp)
    rw [hT] at h
    exact h
  have hdrops' : ripRouteDrops (ripTunnel st resp (ripIp resp)).1
      (ripTunnel st resp (ripIp resp)).2.1 (ripIp resp) (ripKl resp) = false := by
    rw [hT]
    exact hdrops
  have hres := ripresponse_noDrop_eq st resp now h1 h2 h3 hdrops'
  rw [hT] at hres
  dsimp only at hres
  rw [hG] at hres
  dsimp only at hres
  rw [hres]
  cases hOld : (st2.heapR rid).tunnel with
  | none =>
    rw [ripLink_of_none st2 tid rid hOld]
    dsimp only
    refine ⟨?_, ?_, ⟨ev1, _, rfl, hev1R, hev1G⟩, ?_, ?_, ?_⟩
    · simp [List.filter_append, hev1R, isRoutingCall, ripCallEv]
    · simp [List.filter_append, hev1G, isGraphEv]
    · exact (linkTail_props st2 st2 tid rid _ rfl h6).1
    · exact (linkTail_props st2 st2 tid rid _ rfl h6).2.1
    · exact (linkTail_props st2 st2 tid rid _ rfl h6).2.2
  | some t' =>
    have hne : t' ≠ tid := by
      intro hh
      exact h5 (by rw [hOld, hh])
    rw [ripLink_of_some st2 tid t' rid hOld hne]
    rw [unlinkroute_ev]
    obtain ⟨dtl, hdtl, hdtlR, hdtlG⟩ :=
      collapse_ev_some (unlinkroute st2 (some t') rid).1 t'
    rw [hdtl]
    have hCT : (collapse (unlinkroute st2 (some t') rid).1 (some t')).1.heapT tid =
        st2.heapT tid := by
      rw [collapse_heapT]
      exact unlinkroute_heapT_ne st2 t' tid rid hne
    dsimp only
    refine ⟨?_, ?_, ⟨ev1, _, rfl, hev1R, hev1G⟩, ?_, ?_, ?_⟩
    · simp [List.filter_append, hev1R, hdtlR, isRoutingCall, ripCallEv, linkroute]
    · simp [List.filter_append, hev1G, hdtlG, isGraphEv, linkroute]
    · exact (linkTail_props st2 _ tid rid _ hCT h6).1
    · exact (linkTail_props st2 _ tid rid _ hCT h6).2.1
    · exact (linkTail_props st2 _ tid rid _ hCT h6).2.2

/-- Witness for C1 at demoSt and demoResp: route id 0 is fresh (nil
back-pointer), so the routing call is addroute, and afterwards the route
is linked exactly once to tunnel id 0. -/
theorem ripresponse_reconcile_order_witness :
    ((ripresponse demoSt demoResp 5).1.heapR
        (ripRouteGet (ripTunnel demoSt demoResp (ripIp demoResp)).1 demoResp
          (ripIp demoResp) (ripKl demoResp)).2).tunnel =
      some (ripTunnel demoSt demoResp (ripIp demoResp)).2.1 ∧
    ((ripresponse demoSt demoResp 5).1.heapT
        (ripTunnel demoSt demoResp (ripIp demoResp)).2.1).routes.count
        (ripRouteGet (ripTunnel demoSt demoResp (ripIp demoResp)).1 demoResp
          (ripIp demoResp) (ripKl demoResp)).2 = 1 :=
  have h := ripresponse_reconcile_order demoSt demoResp 5
    (ripTunnel demoSt demoResp (ripIp demoResp)).1
    (ripTunnel demoSt demoResp (ripIp demoResp)).2.1
    (ripTunnel demoSt demoResp (ripIp demoResp)).2.2
    (ripRouteGet (ripTunnel demoSt demoResp (ripIp demoResp)).1 demoResp
      (ripIp demoResp) (ripKl demoResp)).1
    (ripRouteGet (ripTunnel demoSt demoResp (ripIp demoResp)).1 demoResp
      (ripIp demoResp) (ripKl demoResp)).2
    (by decide) (by decide) (by decide) rfl (by decide) rfl (by decide) (by decide)
  ⟨h.2.2.2.2.2, h.2.2.2.1⟩

/-- C5: for an accepted response whose exact (ipaddr, cidr) is absent from
the routes map, the covering-route logic of ripresponse: when the
nearest cover is served by the tunnel of the response's next hop
(looked up in the tunnel index), the call returns with the whole state
unchanged and nothing inserted; when every cover (if any) is served by
a different tunnel, a fresh Route is created with the normalized
address and advertised mask, inserted into the routes map, and
subsequently linked to the next hop's tunnel. -/
theorem ripresponse_cover_logic (st : St) (resp : RIPResponse) (now : Int)
    (h1 : resp.nexthop ≠ st.local_outer_addr)
    (h2 : resp.nexthop &&& resp.subnetmask ≠ ripIp resp)
    (h3 : ipmapnearest st.acceptable (ripIp resp) (ripKl resp) = some Policy.accept)
    (hfr : ipmapfind st.routes (ripIp resp) (ripKl resp) = none) :
    (∀ tid cover,
      ipmapfind st.tunnels resp.nexthop 32 = some tid →
      ipmapnearest st.routes (ripIp resp) (ripKl resp) = some cover →
      (st.heapR cover).tunnel = some tid →
      ripresponse st resp now = (st, [])) ∧
    ((∀ cover, ipmapnearest st.routes (ripIp resp) (ripKl resp) = some cover →
        (st.heapR cover).tunnel ≠ some (ripTunnel st resp (ripIp resp)).2.1) →
      ipmapfind (ripresponse st resp now).1.routes (ripIp resp) (ripKl resp) =
        some st.nextR ∧
      ((ripresponse st resp now).1.heapR st.nextR).ipnet = ripIp resp ∧
      ((ripresponse st resp now).1.heapR st.nextR).subnetmask = resp.subnetmask ∧
      ((ripresponse st resp now).1.heapR st.nextR).tunnel =
        some (ripTunnel st resp (ripIp resp)).2.1 ∧
      st.nextR ∈
        ((ripresponse st resp now).1.heapT
          (ripTunnel st resp (ripIp resp)).2.1).routes) := by
  constructor
  · intro tid cover htf hcov hsame
    unfold ripresponse
    rw [if_neg h1, if_neg h2, if_pos h3]
    dsimp only
    rw [ripTunnel_found st resp _ tid htf]
    have hdrops : ripRouteDrops st tid (ripIp resp) (ripKl resp) = true := by
      unfold ripRouteDrops
      rw [hfr, hcov]
      simp [hsame]
    simp [hdrops]
  · intro hdiff
    have hfr1 : ipmapfind (ripTunnel st resp (ripIp resp)).1.routes
        (ripIp resp) (ripKl resp) = none := by
      rw [ripTunnel_routes]; exact hfr
    have hdrops : ripRouteDrops (ripTunnel st resp (ripIp resp)).1
        (ripTunnel st resp (ripIp resp)).2.1 (ripIp resp) (ripKl resp) = false := by
      unfold ripRouteDrops
      rw [hfr1]
      cases hc : ipmapnearest (ripTunnel st resp (ripIp resp)).1.routes
          (ripIp resp) (ripKl resp) with
      | none => rfl
      | some cover =>
        rw [ripTunnel_routes] at hc
        have hne := hdiff cover hc
        rw [← ripTunnel_heapR st resp (ripIp resp)] at hne
        exact decide_eq_false hne
    have hp := createLink_props (ripTunnel st resp (ripIp resp)).1 resp
      (ripTunnel st resp (ripIp resp)).2.1 (ripIp resp) (ripKl resp) now hfr1
    rw [ripTunnel_nextR] at hp
    rw [ripresponse_noDrop_eq st resp now h1 h2 h3 hdrops]
    dsimp only
    exact ⟨hp.2.1, hp.2.2.1, hp.2.2.2.1, hp.2.2.2.2.1, hp.2.2.2.2.2⟩

/-- Witness for C5 at the concrete empty routes map of demoSt: demoResp
creates route id 0 and links it to the created tunnel. -/
theorem ripresponse_cover_logic_witness :
    ipmapfind demoSt.routes (ripIp demoResp) (ripKl demoResp) = none ∧
    ipmapfind (ripresponse demoSt demoResp 5).1.routes
      (ripIp demoResp) (ripKl demoResp) = some demoSt.nextR ∧
    ((ripresponse demoSt demoResp 5).1.heapR demoSt.nextR).tunnel =
      some (ripTunnel demoSt demoResp (ripIp demoResp)).2.1 := by
  have hd : ∀ cover, ipmapnearest demoSt.routes (ripIp demoResp) (ripKl demoResp) =
      some cover →
      (demoSt.heapR cover).tunnel ≠
        some (ripTunnel demoSt demoResp (ripIp demoResp)).2.1 := by
    intro cover hc
    have hn : ipmapnearest demoSt.routes (ripIp demoResp) (ripKl demoResp) = none := by
      decide
    rw [hn] at hc
    cases hc
  have h := (ripresponse_cover_logic demoSt demoResp 5 (by decide) (by decide)
    (by decide) (by decide)).2 hd
  exact ⟨by decide, h.1, h.2.2.2.1⟩

theorem addrtInvoke_foldl_mem (h : RId → Route) (t' : Tunnel) (l : List RId)
    (acc : List SysEv) (r : RId) :
    SysEv.addrtInvoke r ∈ l.foldl (fun acc x => acc ++ sysaddroute h t' x) acc ↔
      SysEv.addrtInvoke r ∈ acc ∨ r ∈ l := by
  induction l generalizing acc with
  | nil => simp
  | cons x xs ih =>
    rw [List.foldl_cons, ih, List.mem_append]
    have hs : SysEv.addrtInvoke r ∈ sysaddroute h t' x ↔ r = x := by
      unfold sysaddroute
      split <;> simp
    rw [hs]
    simp only [List.mem_cons]
    tauto

/-- C3: the rebase protocol for a basis route (ipnet equals the tunnel's
inner_remote): with nref 1 it deletes the inner addresses and returns
without reconfiguring; otherwise the first linked route other than the
basis becomes the new basis, inner_remote becomes its ipnet (the ipnet
of an actually-linked route), the inner addresses are deleted and then
re-added, and addroute is invoked exactly for the remaining linked
routes other than the old and the new basis. -/
theorem tunnel_rebase_protocol (h : RId → Route) (t : Tunnel) (rid : RId)
    (_hbasis : (h rid).ipnet = t.inner_remote)
    (hmem : rid ∈ t.routes)
    (hlen : t.nref = (t.routes.length : Int))
    (hcount : t.routes.count rid ≤ 1) :
    (t.nref = 1 → tunnel_rebase h t rid = (t, [SysEv.cfgInnerDel])) ∧
    (t.nref ≠ 1 →
      ∃ newrt, t.routes.find? (fun r => r != rid) = some newrt ∧
        newrt ∈ t.routes ∧ newrt ≠ rid ∧
        (tunnel_rebase h t rid).1.inner_remote = (h newrt).ipnet ∧
        (tunnel_rebase h t rid).1.routes = t.routes ∧
        ∃ adds, (tunnel_rebase h t rid).2 =
            SysEv.cfgInnerDel :: SysEv.cfgInnerAdd :: adds ∧
          (∀ r, SysEv.addrtInvoke r ∈ adds ↔
            (r ∈ t.routes ∧ r ≠ rid ∧ r ≠ newrt))) := by
  constructor
  · intro h1
    unfold tunnel_rebase
    rw [if_pos h1]
  · intro hne1
    have hpos : 0 < t.routes.length := List.length_pos.mpr (List.ne_nil_of_mem hmem)
    have hlen2 : 2 ≤ t.routes.length := by omega
    have hex : ∃ x ∈ t.routes, x ≠ rid := by
      by_contra hall
      push_neg at hall
      have hc : t.routes.count rid = t.routes.length :=
        List.count_eq_length.mpr (fun b hb => (hall b hb).symm)
      omega
    obtain ⟨x, hx, hxne⟩ := hex
    have hfind : (t.routes.find? (fun r => r != rid)).isSome :=
      List.find?_isSome.mpr ⟨x, hx, by simp [hxne]⟩
    obtain ⟨newrt, hnew⟩ := Option.isSome_iff_exists.mp hfind
    have hnmem : newrt ∈ t.routes := List.mem_of_find?_eq_some hnew
    have hnne : newrt ≠ rid := by
      have hp := List.find?_some hnew
      simpa using hp
    have hreb : tunnel_rebase h t rid =
        ({ t with inner_remote := (h newrt).ipnet },
         SysEv.cfgInnerDel :: SysEv.cfgInnerAdd ::
          (t.routes.filter (fun r => r != rid && r != newrt)).foldl
            (fun acc r => acc ++
              sysaddroute h { t with inner_remote := (h newrt).ipnet } r) []) := by
      unfold tunnel_rebase
      rw [if_neg hne1, hnew]
    refine ⟨newrt, hnew, hnmem, hnne, ?_, ?_, ?_⟩
    · rw [hreb]
    · rw [hreb]
    · refine ⟨_, by rw [hreb], ?_⟩
      intro r
      rw [addrtInvoke_foldl_mem]
      simp [List.mem_filter]

/-- Witness for C3 at the concrete two-route tunnel rebaseTun losing its
basis route 0. -/
theorem linkroute_tunnels (st : St) (tid : TId) (rid : RId) :
    (linkroute st tid rid).1.tunnels = st.tunnels := rfl

theorem linkroute_heapT_ne (st : St) (tid t : TId) (rid : RId) (h : t ≠ tid) :
    (linkroute st tid rid).1.heapT t = st.heapT t := by
  simp [linkroute, updT, h]

theorem unlinkroute_tunnels (st : St) (ot : Option TId) (rid : RId) :
    (unlinkroute st ot rid).1.tunnels = st.tunnels := by
  unfold unlinkroute
  match ot with
  | none => rfl
  | some tid => dsimp only; split <;> rfl

theorem unlinkroute_of_none_match (st : St) (tid : TId) (rid : RId)
    (h : removeFirstMatch st.heapR (st.heapR rid) (st.heapT tid).routes = none) :
    (unlinkroute st (some tid) rid).1 = st := by
  unfold unlinkroute
  dsimp only
  rw [h]

theorem unlinkroute_of_some_match (st : St) (tid : TId) (rid : RId) (rest : List RId)
    (h : removeFirstMatch st.heapR (st.heapR rid) (st.heapT tid).routes = some rest) :
    (unlinkroute st (some tid) rid).1.heapT tid =
      { st.heapT tid with routes := rest, nref := (st.heapT tid).nref - 1 } := by
  unfold unlinkroute
  dsimp only
  rw [h]
  simp [updT]

theorem removeFirstMatch_length (h : RId → Route) (key : Route) (l : List RId)
    (rest : List RId) (hr : removeFirstMatch h key l = some rest) :
    l.length = rest.length + 1 := by
  induction l generalizing rest with
  | nil => simp [removeFirstMatch] at hr
  | cons x xs ih =>
    unfold removeFirstMatch at hr
    split at hr
    · cases hr
      rfl
    · cases hx : removeFirstMatch h key xs with
      | none => rw [hx] at hr; cases hr
      | some rest' =>
        rw [hx] at hr
        cases hr
        simp [ih rest' hx]

theorem ipmapremove_subset {α : Type} (m : IPMap α) (k l : Nat)
    (e : (Nat × Nat) × α) (he : e ∈ ipmapremove m k l) : e ∈ m := by
  induction m with
  | nil => simp [ipmapremove] at he
  | cons x xs ih =>
    unfold ipmapremove at he
    split at he
    · exact List.mem_cons_of_mem x he
    · rcases List.mem_cons.mp he with hE | hE
      · exact hE ▸ List.mem_cons_self x xs
      · exact List.mem_cons_of_mem x (ih hE)

theorem collapse_tunnels_subset (st : St) (ot : Option TId)
    (e : (Nat × Nat) × TId) (he : e ∈ (collapse st ot).1.tunnels) :
    e ∈ st.tunnels := by
  unfold collapse at he
  match ot with
  | none => exact he
  | some tid =>
    dsimp only at he
    split at he
    · exact ipmapremove_subset _ _ _ _ he
    · exact he

theorem TunnelInv_link (st : St) (tid : TId) (rid : RId) (hinv : TunnelInv st) :
    TunnelInv (linkroute st tid rid).1 := by
  intro e he
  rw [linkroute_tunnels] at he
  by_cases hh : e.2 = tid
  · rw [hh, linkroute_heapT_self]
    have h0 := hinv e he
    rw [hh] at h0
    dsimp only
    rw [h0]
    simp only [List.length_cons]
    push_cast
    ring
  · rw [linkroute_heapT_ne st tid e.2 rid hh]
    exact hinv e he

theorem TunnelInv_unlink (st : St) (ot : Option TId) (rid : RId) (hinv : TunnelInv st) :
    TunnelInv (unlinkroute st ot rid).1 := by
  match ot with
  | none => rw [unlinkroute_none]; exact hinv
  | some tid =>
    cases hrm : removeFirstMatch st.heapR (st.heapR rid) (st.heapT tid).routes with
    | none => rw [unlinkroute_of_none_match st tid rid hrm]; exact hinv
    | some rest =>
      intro e he
      rw [unlinkroute_tunnels] at he
      by_cases hh : e.2 = tid
      · rw [hh, unlinkroute_of_some_match st tid rid rest hrm]
        have h0 := hinv e he
        rw [hh] at h0
        have hl := removeFirstMatch_length st.heapR (st.heapR rid) _ rest hrm
        dsimp only
        rw [h0, hl]
        push_cast
        ring
      · rw [unlinkroute_heapT_ne st tid e.2 rid (Ne.symm hh)]
        exact hinv e he

theorem TunnelInv_collapse (st : St) (ot : Option TId) (hinv : TunnelInv st) :
    TunnelInv (collapse st ot).1 := by
  intro e he
  rw [collapse_heapT]
  exact hinv e (collapse_tunnels_subset st ot e he)

theorem TunnelInv_spawn (st : St) (resp : RIPResponse) (ip : Nat) (hinv : TunnelInv st) :
    TunnelInv (ripTunnel st resp ip).1 := by
  unfold ripTunnel
  split
  · exact hinv
  next hfind =>
    intro e he
    dsimp only at he ⊢
    rw [ipmapinsert_of_none _ _ _ _ hfind] at he
    by_cases hh : e.2 = st.nextT
    · rw [hh, updT_self]
      simp [mktunnel]
    · rcases List.mem_cons.mp he with hE | hE
      · rw [hE] at hh
        simp at hh
      · simp only [updT, if_neg hh]
        exact hinv e hE

theorem GraphStep_inv (st st' : St) (h : GraphStep st st') (hinv : TunnelInv st) :
    TunnelInv st' := by
  cases h with
  | link tid rid => exact TunnelInv_link st tid rid hinv
  | unlink ot rid => exact TunnelInv_unlink st ot rid hinv
  | coll ot => exact TunnelInv_collapse st ot hinv
  | spawn resp ip => exact TunnelInv_spawn st resp ip hinv

theorem initSt_TunnelInv (lo li : Nat) (static : Finset Nat)
    (acc : List ((Nat × Nat) × Policy)) : TunnelInv (initSt lo li static acc) := by
  intro e he
  simp [initSt] at he

/-- C2: every state reachable from an initialized state through the graph
operations satisfies nref == len(routes) for every tunnel in the index;
linkroute (under its route.tunnel-nil precondition) prepends the route
and increments nref by one; unlinkroute decrements nref by one exactly
when it removes a list element matching the route's
(ipnet, subnetmask) and changes nothing otherwise (including on a nil
tunnel); and collapse preserves the invariant. -/
theorem tunnel_refcount_invariant :
    (∀ st : St, GraphReachable st → TunnelInv st) ∧
    (∀ (st : St) (tid : TId) (rid : RId), (st.heapR rid).tunnel = none →
      ((linkroute st tid rid).1.heapT tid).routes = rid :: (st.heapT tid).routes ∧
      ((linkroute st tid rid).1.heapT tid).nref = (st.heapT tid).nref + 1) ∧
    (∀ (st : St) (tid : TId) (rid : RId),
      (removeFirstMatch st.heapR (st.heapR rid) (st.heapT tid).routes = none →
        (unlinkroute st (some tid) rid).1 = st) ∧
      (∀ rest,
        removeFirstMatch st.heapR (st.heapR rid) (st.heapT tid).routes = some rest →
        ((unlinkroute st (some tid) rid).1.heapT tid).routes = rest ∧
        ((unlinkroute st (some tid) rid).1.heapT tid).nref =
          (st.heapT tid).nref - 1 ∧
        (st.heapT tid).routes.length = rest.length + 1) ∧
      (unlinkroute st none rid).1 = st) ∧
    (∀ (st : St) (ot : Option TId), TunnelInv st → TunnelInv (collapse st ot).1) := by
  refine ⟨?_, ?_, ?_, TunnelInv_collapse⟩
  · intro st hreach
    obtain ⟨lo, li, static, acc, hr⟩ := hreach
    induction hr with
    | refl => exact initSt_TunnelInv lo li static acc
    | tail _ hstep ih => exact GraphStep_inv _ _ hstep ih
  · intro st tid rid _
    rw [linkroute_heapT_self]
    exact ⟨rfl, rfl⟩
  · intro st tid rid
    refine ⟨unlinkroute_of_none_match st tid rid, ?_, unlinkroute_none st rid⟩
    intro rest hrm
    rw [unlinkroute_of_some_match st tid rid rest hrm]
    exact ⟨rfl, rfl, removeFirstMatch_length st.heapR (st.heapR rid) _ rest hrm⟩

/-- Witness for C2: the invariant at a state reached by a spawn step from
an initialized state, and the linkroute effect at demoSt. -/
theorem tunnel_refcount_invariant_witness :
    TunnelInv (ripTunnel (initSt 1 2 ∅ []) demoResp (ripIp demoResp)).1 ∧
    ((demoSt.heapR 0).tunnel = none ∧
      ((linkroute demoSt 0 0).1.heapT 0).nref = (demoSt.heapT 0).nref + 1) :=
  ⟨tunnel_refcount_invariant.1 _
    ⟨1, 2, ∅, [], Relation.ReflTransGen.tail Relation.ReflTransGen.refl
      (GraphStep.spawn (initSt 1 2 ∅ []) demoResp (ripIp demoResp))⟩,
   by decide,
   (tunnel_refcount_invariant.2.1 demoSt 0 0 (by decide)).2⟩

theorem tunnel_rebase_protocol_witness :
    rebaseTun.nref ≠ 1 ∧
    ∃ newrt, rebaseTun.routes.find? (fun r => r != 0) = some newrt ∧
      newrt ∈ rebaseTun.routes ∧ newrt ≠ 0 ∧
      (tunnel_rebase rebaseHeap rebaseTun 0).1.inner_remote =
        (rebaseHeap newrt).ipnet ∧
      (tunnel_rebase rebaseHeap rebaseTun 0).1.routes = rebaseTun.routes ∧
      ∃ adds, (tunnel_rebase rebaseHeap rebaseTun 0).2 =
          SysEv.cfgInnerDel :: SysEv.cfgInnerAdd :: adds ∧
        (∀ r, SysEv.addrtInvoke r ∈ adds ↔
          (r ∈ rebaseTun.routes ∧ r ≠ 0 ∧ r ≠ newrt)) :=
  ⟨by decide,
   (tunnel_rebase_protocol rebaseHeap rebaseTun 0 (by decide) (by decide)
     (by decide) (by decide)).2 (by decide)⟩

theorem nextbit_not_mem (s : Finset Nat) : nextbit s ∉ s := by
  unfold nextbit
  cases hf : (List.range (s.card + 1)).find? (fun n => decide (n ∉ s)) with
  | some x =>
    have hp := List.find?_some hf
    simpa using hp
  | none =>
    exfalso
    have hall := List.find?_eq_none.mp hf
    have hsub : (List.range (s.card + 1)).toFinset ⊆ s := by
      intro n hn
      have hr := List.mem_toFinset.mp hn
      have hna := hall n hr
      simpa using hna
    have hcard := Finset.card_le_card hsub
    rw [List.toFinset_card_of_nodup (List.nodup_range _), List.length_range] at hcard
    omega

theorem find?_split {α : Type} (p : α → Bool) (l : List α) (a : α)
    (h : l.find? p = some a) :
    ∃ l1 l2, l = l1 ++ a :: l2 ∧ ∀ x ∈ l1, p x = false := by
  induction l with
  | nil => simp [List.find?] at h
  | cons x xs ih =>
    by_cases hp : p x = true
    · rw [List.find?_cons_of_pos _ hp] at h
      cases h
      exact ⟨[], xs, rfl, by simp⟩
    · rw [List.find?_cons_of_neg _ hp] at h
      obtain ⟨l1, l2, heq, hall⟩ := ih h
      refine ⟨x :: l1, l2, by rw [heq, List.cons_append], ?_⟩
      intro y hy
      rcases List.mem_cons.mp hy with h1 | h1
      · rw [h1]
        exact Bool.eq_false_iff.mpr hp
      · exact hall y h1

theorem ipmapremove_of_split {α : Type} (k l : Nat)
    (l1 l2 : List ((Nat × Nat) × α)) (E : (Nat × Nat) × α)
    (h1 : ∀ x ∈ l1, entMatch k l x = false) (hE : entMatch k l E = true) :
    ipmapremove (l1 ++ E :: l2) k l = l1 ++ l2 := by
  induction l1 with
  | nil => simp [ipmapremove, hE]
  | cons x xs ih =>
    have hx : entMatch k l x = false := h1 x (List.mem_cons_self _ _)
    rw [List.cons_append]
    simp only [ipmapremove, hx]
    rw [ih (fun y hy => h1 y (List.mem_cons_of_mem _ hy))]
    simp

theorem toFinset_append_cons_of_nodup (xs ys : List Nat) (a : Nat)
    (h : (xs ++ a :: ys).Nodup) :
    (xs ++ ys).toFinset = (xs ++ a :: ys).toFinset.erase a := by
  obtain ⟨hxs, hcons, hdisj⟩ := List.nodup_append.mp h
  have ha : a ∉ xs ++ ys := by
    intro hmem
    rcases List.mem_append.mp hmem with h1 | h1
    · exact hdisj h1 (List.mem_cons_self a ys)
    · exact (List.nodup_cons.mp hcons).1 h1
  ext b
  simp only [List.mem_toFinset, List.mem_append, List.mem_cons, Finset.mem_erase]
  constructor
  · intro hb
    refine ⟨?_, ?_⟩
    · intro hba
      rw [hba] at hb
      exact ha (List.mem_append.mpr hb)
    · tauto
  · rintro ⟨hb1, hb2⟩
    tauto

/-- SysInv is determined by the tunnel index, the bitvec, the static set,
the allocation counter, and the ifnum and outer_remote fields of the
tunnel heap. -/
theorem SysInv_congr (st st' : St)
    (ht : st'.tunnels = st.tunnels)
    (hi : st'.interfaces = st.interfaces)
    (hs : st'.staticifs = st.staticifs)
    (hn : st'.nextT = st.nextT)
    (hh : ∀ x, (st'.heapT x).ifnum = (st.heapT x).ifnum ∧
      (st'.heapT x).outer_remote = (st.heapT x).outer_remote)
    (hinv : SysInv st) : SysInv st' := by
  have hlist : tunnelIfnumList st' = tunnelIfnumList st := by
    unfold tunnelIfnumList
    rw [ht]
    exact List.map_congr_left (fun e _ => (hh e.2).1)
  refine ⟨?_, ?_, ?_, ?_, ?_, ?_⟩
  · rw [hi, hs]
    unfold tunnelIfnums
    rw [hlist]
    exact hinv.bits
  · intro e he
    rw [ht] at he
    rw [hs, (hh e.2).1]
    exact hinv.nostatic e he
  · intro e he
    rw [ht] at he
    rw [(hh e.2).2]
    exact hinv.keys e he
  · intro e he
    rw [ht] at he
    rw [hn]
    exact hinv.fresh e he
  · rw [hlist]
    exact hinv.ifnodup
  · rw [ht]
    exact hinv.keynodup

theorem ripRouteGet_frame (st : St) (resp : RIPResponse) (ip kl : Nat) :
    (ripRouteGet st resp ip kl).1.tunnels = st.tunnels ∧
    (ripRouteGet st resp ip kl).1.interfaces = st.interfaces ∧
    (ripRouteGet st resp ip kl).1.staticifs = st.staticifs ∧
    (ripRouteGet st resp ip kl).1.nextT = st.nextT ∧
    (ripRouteGet st resp ip kl).1.heapT = st.heapT := by
  unfold ripRouteGet
  split <;> exact ⟨rfl, rfl, rfl, rfl, rfl⟩

theorem unlinkroute_frame (st : St) (ot : Option TId) (rid : RId) :
    (unlinkroute st ot rid).1.interfaces = st.interfaces ∧
    (unlinkroute st ot rid).1.staticifs = st.staticifs ∧
    (unlinkroute st ot rid).1.nextT = st.nextT := by
  unfold unlinkroute
  match ot with
  | none => exact ⟨rfl, rfl, rfl⟩
  | some tid =>
    dsimp only
    split <;> exact ⟨rfl, rfl, rfl⟩

theorem unlinkroute_heapT_fields (st : St) (ot : Option TId) (rid : RId) (x : TId) :
    ((unlinkroute st ot rid).1.heapT x).ifnum = (st.heapT x).ifnum ∧
    ((unlinkroute st ot rid).1.heapT x).outer_remote = (st.heapT x).outer_remote := by
  unfold unlinkroute
  match ot with
  | none => exact ⟨rfl, rfl⟩
  | some tid =>
    dsimp only
    split
    · exact ⟨rfl, rfl⟩
    · by_cases hx : x = tid
      · rw [hx]
        dsimp only
        rw [updT_self]
        exact ⟨rfl, rfl⟩
      · dsimp only
        simp [updT, hx]

theorem linkroute_heapT_fields (st : St) (tid : TId) (rid : RId) (x : TId) :
    ((linkroute st tid rid).1.heapT x).ifnum = (st.heapT x).ifnum ∧
    ((linkroute st tid rid).1.heapT x).outer_remote = (st.heapT x).outer_remote := by
  by_cases hx : x = tid
  · rw [hx, linkroute_heapT_self]
    exact ⟨rfl, rfl⟩
  · rw [linkroute_heapT_ne st tid x rid hx]
    exact ⟨rfl, rfl⟩

theorem prefMask_32 : prefMask 32 = hostmask := by
  norm_num [prefMask]

/-- Inserting a freshly allocated tunnel (interface number not in the
bitvec, key equal to its outer_remote, id at the allocation counter)
preserves the system invariant. -/
theorem SysInv_insertTunnel (st : St) (orr : Nat) (t : Tunnel)
    (hfind : ipmapfind st.tunnels orr 32 = none)
    (hifn : t.ifnum ∉ st.interfaces)
    (hkey : t.outer_remote = orr)
    (hinv : SysInv st) :
    SysInv { st with
      interfaces := insert t.ifnum st.interfaces,
      heapT := updT st.heapT st.nextT t,
      nextT := st.nextT + 1,
      tunnels := (ipmapinsert st.tunnels orr 32 st.nextT).1 } := by
  have hins : (ipmapinsert st.tunnels orr 32 st.nextT).1 =
      ((orr, 32), st.nextT) :: st.tunnels := by
    rw [ipmapinsert_of_none _ _ _ _ hfind]
  have hmatch := List.find?_eq_none.mp (ipmapfind_none_find? _ _ _ hfind)
  have hmap_tail : ∀ e ∈ st.tunnels, updT st.heapT st.nextT t e.2 = st.heapT e.2 := by
    intro e he
    have hne : e.2 ≠ st.nextT := Nat.ne_of_lt (hinv.fresh e he)
    simp [updT, hne]
  have hsub_static : st.staticifs ⊆ st.interfaces := by
    rw [hinv.bits]
    exact Finset.subset_union_left
  have himg_sub : ∀ x ∈ tunnelIfnumList st, x ∈ st.interfaces := by
    intro x hx
    rw [hinv.bits]
    exact Finset.mem_union_right _ (List.mem_toFinset.mpr hx)
  have hlist : tunnelIfnumList { st with
      interfaces := insert t.ifnum st.interfaces,
      heapT := updT st.heapT st.nextT t,
      nextT := st.nextT + 1,
      tunnels := (ipmapinsert st.tunnels orr 32 st.nextT).1 } =
      t.ifnum :: tunnelIfnumList st := by
    unfold tunnelIfnumList
    dsimp only
    rw [hins, List.map_cons]
    dsimp only
    rw [updT_self]
    congr 1
    exact List.map_congr_left (fun e he => by rw [hmap_tail e he])
  refine ⟨?_, ?_, ?_, ?_, ?_, ?_⟩
  · show insert t.ifnum st.interfaces = st.staticifs ∪ _
    unfold tunnelIfnums
    rw [hlist, List.toFinset_cons, hinv.bits, Finset.union_insert]
    rfl
  · intro e he
    dsimp only at he ⊢
    rw [hins] at he
    rcases List.mem_cons.mp he with hE | hE
    · rw [hE]
      dsimp only
      rw [updT_self]
      intro hmem
      exact hifn (hsub_static hmem)
    · rw [hmap_tail e hE]
      exact hinv.nostatic e hE
  · intro e he
    dsimp only at he ⊢
    rw [hins] at he
    rcases List.mem_cons.mp he with hE | hE
    · rw [hE]
      dsimp only
      rw [updT_self, hkey]
    · rw [hmap_tail e hE]
      exact hinv.keys e hE
  · intro e he
    dsimp only at he ⊢
    rw [hins] at he
    rcases List.mem_cons.mp he with hE | hE
    · rw [hE]
      exact Nat.lt_succ_self st.nextT
    · have hfr := hinv.fresh e hE
      exact Nat.lt_succ_of_lt hfr
  · rw [hlist]
    refine List.nodup_cons.mpr ⟨?_, hinv.ifnodup⟩
    intro hmem
    exact hifn (himg_sub _ hmem)
  · dsimp only
    rw [hins, List.map_cons]
    dsimp only
    refine List.nodup_cons.mpr ⟨?_, hinv.keynodup⟩
    intro hmem
    obtain ⟨e, he, heq⟩ := List.mem_map.mp hmem
    have he12 : e.1.2 = 32 := by
      rw [hinv.keys e he]
    have hem : entMatch orr 32 e = true := by
      simp [entMatch, he12, prefMask_32, heq]
    exact hmatch e he hem

theorem SysInv_tun (st : St) (resp : RIPResponse) (ip : Nat) (hinv : SysInv st) :
    SysInv (ripTunnel st resp ip).1 := by
  unfold ripTunnel
  split
  · exact hinv
  next hfind =>
    exact SysInv_insertTunnel st resp.nexthop
      { mktunnel st.local_outer_addr resp.nexthop st.local_inner_addr ip with
          ifnum := nextbit st.interfaces,
          ifname := "gif" ++ toString (nextbit st.interfaces) }
      hfind (nextbit_not_mem _) (by simp [mktunnel]) hinv

theorem SysInv_coll (st : St) (tid : TId)
    (hfind : ipmapfind st.tunnels (st.heapT tid).outer_remote 32 = some tid)
    (hinv : SysInv st) : SysInv (collapse st (some tid)).1 := by
  unfold collapse
  dsimp only
  split
  · obtain ⟨E, hE, hE2⟩ := Option.map_eq_some'.mp hfind
    obtain ⟨l1, l2, hsplit, hl1⟩ := find?_split _ _ _ hE
    have hEmatch : entMatch (st.heapT tid).outer_remote 32 E = true :=
      List.find?_some hE
    have hEmem : E ∈ st.tunnels := List.mem_of_find?_eq_some hE
    have hrm : ipmapremove st.tunnels (st.heapT tid).outer_remote 32 = l1 ++ l2 := by
      rw [hsplit]
      exact ipmapremove_of_split _ _ l1 l2 E hl1 hEmatch
    have hifList : tunnelIfnumList st =
        l1.map (fun e => (st.heapT e.2).ifnum) ++
          (st.heapT tid).ifnum :: l2.map (fun e => (st.heapT e.2).ifnum) := by
      unfold tunnelIfnumList
      rw [hsplit, List.map_append, List.map_cons, hE2]
    have hsubmem : ∀ e, e ∈ l1 ++ l2 → e ∈ st.tunnels := by
      intro e he
      rw [hsplit]
      rcases List.mem_append.mp he with h1 | h1
      · exact List.mem_append.mpr (Or.inl h1)
      · exact List.mem_append.mpr (Or.inr (List.mem_cons_of_mem _ h1))
    have hnotstat : (st.heapT tid).ifnum ∉ st.staticifs := by
      have := hinv.nostatic E hEmem
      rw [hE2] at this
      exact this
    have hifList' : st.tunnels.map (fun e => (st.heapT e.2).ifnum) =
        l1.map (fun e => (st.heapT e.2).ifnum) ++
          (st.heapT tid).ifnum :: l2.map (fun e => (st.heapT e.2).ifnum) := hifList
    have hnd : (l1.map (fun e => (st.heapT e.2).ifnum) ++
        (st.heapT tid).ifnum :: l2.map (fun e => (st.heapT e.2).ifnum)).Nodup := by
      rw [← hifList']
      exact hinv.ifnodup
    refine ⟨?_, ?_, ?_, ?_, ?_, ?_⟩
    · dsimp only
      unfold tunnelIfnums tunnelIfnumList
      dsimp only
      rw [hrm, List.map_append]
      rw [toFinset_append_cons_of_nodup (l1.map (fun e => (st.heapT e.2).ifnum))
        (l2.map (fun e => (st.heapT e.2).ifnum)) ((st.heapT tid).ifnum) hnd]
      rw [← hifList']
      have hbits := hinv.bits
      unfold tunnelIfnums tunnelIfnumList at hbits
      rw [hbits, Finset.erase_union_distrib, Finset.erase_eq_of_not_mem hnotstat]
    · intro e he
      dsimp only at he ⊢
      rw [hrm] at he
      exact hinv.nostatic e (hsubmem e he)
    · intro e he
      dsimp only at he ⊢
      rw [hrm] at he
      exact hinv.keys e (hsubmem e he)
    · intro e he
      dsimp only at he ⊢
      rw [hrm] at he
      exact hinv.fresh e (hsubmem e he)
    · unfold tunnelIfnumList
      dsimp only
      rw [hrm, List.map_append]
      have hsl : (l1.map (fun e => (st.heapT e.2).ifnum) ++
          l2.map (fun e => (st.heapT e.2).ifnum)).Sublist
          (l1.map (fun e => (st.heapT e.2).ifnum) ++
            (st.heapT tid).ifnum :: l2.map (fun e => (st.heapT e.2).ifnum)) :=
        List.Sublist.append_left (List.sublist_cons_self _ _) _
      exact List.Nodup.sublist hsl hnd
    · dsimp only
      rw [hrm, List.map_append]
      have hkList : st.tunnels.map (fun e => e.1.1 &&& hostmask) =
          l1.map (fun e => e.1.1 &&& hostmask) ++
            (E.1.1 &&& hostmask) :: l2.map (fun e => e.1.1 &&& hostmask) := by
        rw [hsplit, List.map_append, List.map_cons]
      have hknd : (l1.map (fun e => e.1.1 &&& hostmask) ++
          (E.1.1 &&& hostmask) :: l2.map (fun e => e.1.1 &&& hostmask)).Nodup := by
        rw [← hkList]
        exact hinv.keynodup
      have hsl : (l1.map (fun e => e.1.1 &&& hostmask) ++
          l2.map (fun e => e.1.1 &&& hostmask)).Sublist
          (l1.map (fun e => e.1.1 &&& hostmask) ++
            (E.1.1 &&& hostmask) :: l2.map (fun e => e.1.1 &&& hostmask)) :=
        List.Sublist.append_left (List.sublist_cons_self _ _) _
      exact List.Nodup.sublist hsl hknd
  · exact hinv

theorem SysInv_rts (st : St) (resp : RIPResponse) (ip kl : Nat) (hinv : SysInv st) :
    SysInv (ripRouteGet st resp ip kl).1 := by
  obtain ⟨h1, h2, h3, h4, h5⟩ := ripRouteGet_frame st resp ip kl
  exact SysInv_congr st (ripRouteGet st resp ip kl).1 h1 h2 h3 h4
    (fun x => by rw [h5]; exact ⟨rfl, rfl⟩) hinv

theorem SysInv_lnk (st : St) (tid : TId) (rid : RId) (hinv : SysInv st) :
    SysInv (linkroute st tid rid).1 :=
  SysInv_congr st (linkroute st tid rid).1 rfl rfl rfl rfl
    (linkroute_heapT_fields st tid rid) hinv

theorem SysInv_ulk (st : St) (ot : Option TId) (rid : RId) (hinv : SysInv st) :
    SysInv (unlinkroute st ot rid).1 := by
  obtain ⟨h1, h2, h3⟩ := unlinkroute_frame st ot rid
  exact SysInv_congr st (unlinkroute st ot rid).1 (unlinkroute_tunnels st ot rid)
    h1 h2 h3 (unlinkroute_heapT_fields st ot rid) hinv

theorem SysInv_rexp (st : St) (rid : RId) (e : Int) (hinv : SysInv st) :
    SysInv (setExpires st rid e) :=
  SysInv_congr st (setExpires st rid e) rfl rfl rfl rfl (fun _ => ⟨rfl, rfl⟩) hinv

theorem Step9_inv (st st' : St) (h : Step9 st st') (hinv : SysInv st) : SysInv st' := by
  cases h with
  | tun resp ip => exact SysInv_tun st resp ip hinv
  | rts resp ip kl => exact SysInv_rts st resp ip kl hinv
  | lnk tid rid => exact SysInv_lnk st tid rid hinv
  | ulk ot rid => exact SysInv_ulk st ot rid hinv
  | coll tid hfind => exact SysInv_coll st tid hfind hinv
  | rexp rid e => exact SysInv_rexp st rid e hinv

theorem initSt_SysInv (lo li : Nat) (static : Finset Nat)
    (acc : List ((Nat × Nat) × Policy)) : SysInv (initSt lo li static acc) := by
  refine ⟨?_, ?_, ?_, ?_, ?_, ?_⟩
  · simp [initSt, tunnelIfnums, tunnelIfnumList]
  · intro e he
    simp [initSt] at he
  · intro e he
    simp [initSt] at he
  · intro e he
    simp [initSt] at he
  · simp [tunnelIfnumList, initSt]
  · simp [initSt]

theorem Reach9_SysInv (st : St) (h : Reach9 st) : SysInv st := by
  obtain ⟨lo, li, static, acc, hr⟩ := h
  induction hr with
  | refl => exact initSt_SysInv lo li static acc
  | tail _ hstep ih => exact Step9_inv _ _ hstep ih

/-- C9 counterexample: with a statically owned interface number (the -s
option), the initialized state already violates the claimed equality:
bit 0 is set in the interfaces bitvec while the tunnels map is empty,
so the set of set bits is not the set of tunnel ifnums. -/
theorem interfaces_bitvec_counterexample :
    (initSt 1 2 {0} []).interfaces ≠ tunnelIfnums (initSt 1 2 {0} []) ∧
    (initSt 1 2 {0} []).tunnels = [] ∧
    0 ∈ (initSt 1 2 {0} []).interfaces := by
  refine ⟨by decide, rfl, by decide⟩

/-- C9 as amended: in every state reachable from an initialized state
(with any set of statically owned interface numbers) through the
operations of main.c, the set of bits in the interfaces bitvec equals
the statically owned numbers together with the ifnums of the tunnels
map; allocating a tunnel interface sets exactly its (previously unset)
ifnum, and collapse of a zero-reference tunnel clears exactly the
destroyed tunnel's ifnum. -/
theorem interfaces_bitvec_invariant :
    (∀ st : St, Reach9 st →
      st.interfaces = st.staticifs ∪ tunnelIfnums st) ∧
    (∀ (st : St) (resp : RIPResponse) (ip : Nat),
      ipmapfind st.tunnels resp.nexthop 32 = none →
      (ripTunnel st resp ip).1.interfaces =
        insert (nextbit st.interfaces) st.interfaces ∧
      nextbit st.interfaces ∉ st.interfaces) ∧
    (∀ (st : St) (tid : TId), (st.heapT tid).nref = 0 →
      (collapse st (some tid)).1.interfaces =
        st.interfaces.erase (st.heapT tid).ifnum) := by
  refine ⟨?_, ?_, ?_⟩
  · intro st h
    exact (Reach9_SysInv st h).bits
  · intro st resp ip hfind
    constructor
    · unfold ripTunnel
      rw [hfind]
    · exact nextbit_not_mem _
  · intro st tid h0
    unfold collapse
    dsimp only
    rw [if_pos h0]

/-- Witness for C9 (amended): the equality at an initialized state with
static interface 5, and the allocation effect at demoSt. -/
theorem interfaces_bitvec_invariant_witness :
    (initSt 1 2 {5} []).interfaces =
      (initSt 1 2 {5} []).staticifs ∪ tunnelIfnums (initSt 1 2 {5} []) ∧
    ipmapfind demoSt.tunnels demoResp.nexthop 32 = none ∧
    (ripTunnel demoSt demoResp (ripIp demoResp)).1.interfaces =
      insert (nextbit demoSt.interfaces) demoSt.interfaces :=
  ⟨interfaces_bitvec_invariant.1 _ ⟨1, 2, {5}, [], Relation.ReflTransGen.refl⟩,
   by decide,
   (interfaces_bitvec_invariant.2.1 demoSt demoResp (ripIp demoResp) (by decide)).1⟩

/-- C7 counterexample: in the discovery scenario of spec scenario 6 the
routes map holds two Route entries after discover plus fix_overlaps —
the kernel-installed 10.3.0.5/32 basis route (id 0) is only unlinked
from the tunnel, not removed from the routes map, so the final state
does not contain exactly one Route. -/
theorem discover_basis_remains_in_routes_map :
    discoverScenario.isSome = true ∧
    discoverFinal.routes.length = 2 ∧
    ipmapfind discoverFinal.routes 0x0A030005 32 = some 0 ∧
    (discoverFinal.heapR 0).tunnel = some 0 := by
  refine ⟨by decide, by decide, by decide, by decide⟩

/-- C7 as amended: after discover plus fix_overlaps on the scenario state,
exactly one tunnel remains and its linked route list is exactly the
10.3.0.0/24 route; the /32 basis route no longer appears among the
tunnel's routes (its covering parent 10.3.0.0/24 satisfies
parent.ipnet and parent.subnetmask == route.ipnet and parent.subnetmask,
so unlink_redundant unlinked it, zeroing its gateway and dropping nref
to 1), although its Route record remains in the routes map. -/
theorem discover_collapses_host_route :
    discoverScenario.isSome = true ∧
    discoverFinal.tunnels.length = 1 ∧
    ipmapfind discoverFinal.tunnels 0xCB007105 32 = some 0 ∧
    (discoverFinal.heapT 0).routes = [1] ∧
    (discoverFinal.heapR 1).ipnet = 0x0A030000 ∧
    (discoverFinal.heapR 1).subnetmask = 0xFFFFFF00 ∧
    (discoverFinal.heapT 0).nref = 1 ∧
    0 ∉ (discoverFinal.heapT 0).routes ∧
    (discoverFinal.heapR 0).gateway = 0 ∧
    0x0A030000 &&& 0xFFFFFF00 = 0x0A030005 &&& 0xFFFFFF00 := by
  refine ⟨by decide, by decide, by decide, by decide, by decide, by decide,
    by decide, by decide, by decide, by decide⟩

theorem entMatch_iff_keyOf {α : Type} (k l : Nat) (e : (Nat × Nat) × α) :
    entMatch k l e = true ↔ keyOf e = (k &&& prefMask l, l) := by
  simp only [entMatch, keyOf, Bool.and_eq_true, beq_iff_eq, Prod.ext_iff]
  constructor
  · rintro ⟨h1, h2⟩
    exact ⟨by rw [h1]; exact h2, h1⟩
  · rintro ⟨hc1, hc2⟩
    refine ⟨hc2, ?_⟩
    rw [hc2] at hc1
    exact hc1

theorem find?_eq_of_mem_unique {α : Type} (p : α → Bool) (l : List α) (a : α)
    (ha : a ∈ l) (hp : p a = true) (huniq : ∀ b ∈ l, p b = true → b = a) :
    l.find? p = some a := by
  revert ha huniq
  induction l with
  | nil =>
    intro ha _
    cases ha
  | cons x xs ih =>
    intro ha huniq
    by_cases hx : p x = true
    · rw [List.find?_cons_of_pos _ hx, huniq x (List.mem_cons_self _ _) hx]
    · rw [List.find?_cons_of_neg _ hx]
      have hax : a ∈ xs := by
        rcases List.mem_cons.mp ha with h | h
        · exact absurd (h ▸ hp) hx
        · exact h
      exact ih hax (fun b hb hpb => huniq b (List.mem_cons_of_mem _ hb) hpb)

theorem nodup_map_eq {α β : Type} (f : α → β) (l : List α)
    (hnd : (l.map f).Nodup) (x y : α) (hx : x ∈ l) (hy : y ∈ l)
    (hf : f x = f y) : x = y := by
  revert hnd hx hy
  induction l with
  | nil =>
    intro _ hx _
    cases hx
  | cons z zs ih =>
    intro hnd hx hy
    rw [List.map_cons] at hnd
    obtain ⟨hz, hzs⟩ := List.nodup_cons.mp hnd
    rcases List.mem_cons.mp hx with hxz | hxz <;> rcases List.mem_cons.mp hy with hyz | hyz
    · rw [hxz, hyz]
    · exfalso
      apply hz
      exact List.mem_map.mpr ⟨y, hyz, show f y = f z by rw [← hf, hxz]⟩
    · exfalso
      apply hz
      exact List.mem_map.mpr ⟨x, hxz, show f x = f z by rw [hf, hyz]⟩
    · exact ih hzs hxz hyz

theorem ipmapfind_insert_preserve {α : Type} (m : IPMap α) (k2 l2 : Nat) (v : α)
    (a al : Nat) (r : α)
    (hins : ipmapfind m k2 l2 = none) (hf : ipmapfind m a al = some r) :
    ipmapfind (((k2, l2), v) :: m) a al = some r := by
  unfold ipmapfind at hf ⊢
  rw [List.find?_cons_of_neg]
  · exact hf
  · intro hmatch
    obtain ⟨E, hEf, hEr⟩ := Option.map_eq_some'.mp hf
    have hEm : E ∈ m := List.mem_of_find?_eq_some hEf
    have hEmatch : entMatch a al E = true := List.find?_some hEf
    have hk1 : keyOf ((k2, l2), v) = (a &&& prefMask al, al) :=
      (entMatch_iff_keyOf a al _).mp hmatch
    have hkeyE : keyOf E = (a &&& prefMask al, al) :=
      (entMatch_iff_keyOf a al E).mp hEmatch
    have hEmatch2 : entMatch k2 l2 E = true := by
      rw [entMatch_iff_keyOf, hkeyE, ← hk1]
      rfl
    have hsome : (m.find? (entMatch k2 l2)).isSome :=
      List.find?_isSome.mpr ⟨E, hEm, hEmatch2⟩
    rw [ipmapfind_none_find? m k2 l2 hins] at hsome
    simp at hsome

theorem ripresponse_coverDrop_eq (st : St) (resp : RIPResponse) (now : Int)
    (h1 : resp.nexthop ≠ st.local_outer_addr)
    (h2 : resp.nexthop &&& resp.subnetmask ≠ ripIp resp)
    (h3 : ipmapnearest st.acceptable (ripIp resp) (ripKl resp) = some Policy.accept)
    (hdrops : ripRouteDrops (ripTunnel st resp (ripIp resp)).1
      (ripTunnel st resp (ripIp resp)).2.1 (ripIp resp) (ripKl resp) = true) :
    ripresponse st resp now =
      ((ripTunnel st resp (ripIp resp)).1, (ripTunnel st resp (ripIp resp)).2.2) := by
  unfold ripresponse
  rw [if_neg h1, if_neg h2, if_pos h3]
  dsimp only
  rw [hdrops]
  simp

theorem ripLink_routesmap (st : St) (tid : TId) (rid : RId) :
    (ripLink st tid rid).1.routes = st.routes := by
  unfold ripLink
  split
  · rfl
  · dsimp only
    rw [linkroute_routesmap, collapse_routes, unlinkroute_routesmap]

theorem unlinkroute_heapR_expires (st : St) (ot : Option TId) (rid x : RId) :
    ((unlinkroute st ot rid).1.heapR x).expires = (st.heapR x).expires := by
  unfold unlinkroute
  match ot with
  | none => rfl
  | some tid =>
    dsimp only
    split
    · rfl
    · by_cases hx : x = rid
      · rw [hx]
        dsimp only
        rw [updR_self]
      · dsimp only
        simp [updR, hx]

theorem linkroute_heapR_expires (st : St) (tid : TId) (rid x : RId) :
    ((linkroute st tid rid).1.heapR x).expires = (st.heapR x).expires := by
  by_cases hx : x = rid
  · rw [hx, linkroute_heapR_self]
  · unfold linkroute
    dsimp only
    simp [updR, hx]

theorem ripLink_heapR_expires (st : St) (tid : TId) (rid x : RId) :
    ((ripLink st tid rid).1.heapR x).expires = (st.heapR x).expires := by
  unfold ripLink
  split
  · rfl
  · dsimp only
    rw [linkroute_heapR_expires, collapse_heapR, unlinkroute_heapR_expires]

theorem setExpires_expires_self (st : St) (rid : RId) (e : Int) :
    ((setExpires st rid e).heapR rid).expires = e := by
  rw [setExpires_heapR_self]

theorem setExpires_expires_ne (st : St) (rid : RId) (e : Int) (x : RId)
    (h : x ≠ rid) :
    ((setExpires st rid e).heapR x).expires = (st.heapR x).expires := by
  unfold setExpires
  dsimp only
  simp [updR, h]

theorem ripresponse_routes_eq_or_cons (st : St) (resp : RIPResponse) (now : Int) :
    (ripresponse st resp now).1.routes = st.routes ∨
    (ipmapfind st.routes (ripIp resp) (ripKl resp) = none ∧
     (ripresponse st resp now).1.routes =
       ((ripIp resp, ripKl resp), st.nextR) :: st.routes) := by
  by_cases h1 : resp.nexthop = st.local_outer_addr
  · left
    rw [ripresponse_dropped st resp now (Or.inl h1)]
  · by_cases h2 : resp.nexthop &&& resp.subnetmask = ripIp resp
    · left
      rw [ripresponse_dropped st resp now (Or.inr (Or.inl h2))]
    · by_cases h3 : ipmapnearest st.acceptable (ripIp resp) (ripKl resp) =
          some Policy.accept
      · cases hdrops : ripRouteDrops (ripTunnel st resp (ripIp resp)).1
            (ripTunnel st resp (ripIp resp)).2.1 (ripIp resp) (ripKl resp) with
        | true =>
          left
          rw [ripresponse_coverDrop_eq st resp now h1 h2 h3 hdrops]
          exact ripTunnel_routes st resp (ripIp resp)
        | false =>
          rw [ripresponse_noDrop_eq st resp now h1 h2 h3 hdrops]
          dsimp only
          rw [setExpires_routes, ripLink_routesmap]
          cases hfr : ipmapfind (ripTunnel st resp (ripIp resp)).1.routes
              (ripIp resp) (ripKl resp) with
          | some rid2 =>
            left
            have hget : ripRouteGet (ripTunnel st resp (ripIp resp)).1 resp
                (ripIp resp) (ripKl resp) = ((ripTunnel st resp (ripIp resp)).1, rid2) := by
              unfold ripRouteGet
              rw [hfr]
            rw [hget]
            exact ripTunnel_routes st resp (ripIp resp)
          | none =>
            right
            have hfr' : ipmapfind st.routes (ripIp resp) (ripKl resp) = none := by
              rw [← ripTunnel_routes st resp (ripIp resp)]
              exact hfr
            refine ⟨hfr', ?_⟩
            rw [ripRouteGet_of_none _ resp _ _ hfr]
            dsimp only
            rw [ripTunnel_routes, ripTunnel_nextR]
      · left
        rw [ripresponse_dropped st resp now (Or.inr (Or.inr h3))]

theorem ripresponse_find_preserve (st : St) (resp : RIPResponse) (now : Int)
    (a al : Nat) (rid : RId) (hf : ipmapfind st.routes a al = some rid) :
    ipmapfind (ripresponse st resp now).1.routes a al = some rid := by
  rcases ripresponse_routes_eq_or_cons st resp now with h | ⟨hfr, h⟩
  · rw [h]
    exact hf
  · rw [h]
    exact ipmapfind_insert_preserve _ _ _ _ _ _ _ hfr hf

theorem ripresponse_nodup (st : St) (resp : RIPResponse) (now : Int)
    (hnd : ipNodup st.routes) : ipNodup (ripresponse st resp now).1.routes := by
  rcases ripresponse_routes_eq_or_cons st resp now with h | ⟨hfr, h⟩
  · unfold ipNodup
    rw [h]
    exact hnd
  · unfold ipNodup at hnd ⊢
    rw [h, List.map_cons]
    refine List.nodup_cons.mpr ⟨?_, hnd⟩
    intro hmem
    obtain ⟨e, he, heq⟩ := List.mem_map.mp hmem
    have hmatch : entMatch (ripIp resp) (ripKl resp) e = true := by
      rw [entMatch_iff_keyOf]
      exact heq
    have hsome : (st.routes.find? (entMatch (ripIp resp) (ripKl resp))).isSome :=
      List.find?_isSome.mpr ⟨e, he, hmatch⟩
    rw [ipmapfind_none_find? _ _ _ hfr] at hsome
    simp at hsome

theorem ripresponse_heapR_expires (st : St) (resp : RIPResponse) (now : Int)
    (x : RId) :
    ((ripresponse st resp now).1.heapR x).expires = (st.heapR x).expires ∨
    ((ripresponse st resp now).1.heapR x).expires = now + TIMEOUT := by
  by_cases h1 : resp.nexthop = st.local_outer_addr
  · left
    rw [ripresponse_dropped st resp now (Or.inl h1)]
  · by_cases h2 : resp.nexthop &&& resp.subnetmask = ripIp resp
    · left
      rw [ripresponse_dropped st resp now (Or.inr (Or.inl h2))]
    · by_cases h3 : ipmapnearest st.acceptable (ripIp resp) (ripKl resp) =
          some Policy.accept
      · cases hdrops : ripRouteDrops (ripTunnel st resp (ripIp resp)).1
            (ripTunnel st resp (ripIp resp)).2.1 (ripIp resp) (ripKl resp) with
        | true =>
          left
          rw [ripresponse_coverDrop_eq st resp now h1 h2 h3 hdrops]
          dsimp only
          rw [ripTunnel_heapR]
        | false =>
          rw [ripresponse_noDrop_eq st resp now h1 h2 h3 hdrops]
          dsimp only
          by_cases hx : x = (ripRouteGet (ripTunnel st resp (ripIp resp)).1 resp
              (ripIp resp) (ripKl resp)).2
          · right
            rw [hx, setExpires_expires_self]
          · left
            rw [setExpires_expires_ne _ _ _ _ hx, ripLink_heapR_expires]
            cases hfr : ipmapfind (ripTunnel st resp (ripIp resp)).1.routes
                (ripIp resp) (ripKl resp) with
            | some rid2 =>
              have hget : ripRouteGet (ripTunnel st resp (ripIp resp)).1 resp
                  (ripIp resp) (ripKl resp) =
                  ((ripTunnel st resp (ripIp resp)).1, rid2) := by
                unfold ripRouteGet
                rw [hfr]
              rw [hget]
              dsimp only
              rw [ripTunnel_heapR]
            | none =>
              have hget := ripRouteGet_of_none (ripTunnel st resp (ripIp resp)).1
                resp (ripIp resp) (ripKl resp) hfr
              have hxnext : x ≠ (ripTunnel st resp (ripIp resp)).1.nextR := by
                intro hh
                apply hx
                rw [hget, hh]
              rw [hget]
              dsimp only
              simp only [updR, if_neg hxnext]
              rw [ripTunnel_heapR]
      · left
        rw [ripresponse_dropped st resp now (Or.inr (Or.inr h3))]

theorem ipmapremove_mem_of_ne {α : Type} (m : IPMap α) (k l : Nat)
    (E : (Nat × Nat) × α) (hE : E ∈ m)
    (hne : keyOf E ≠ (k &&& prefMask l, l)) : E ∈ ipmapremove m k l := by
  revert hE
  induction m with
  | nil =>
    intro hE
    cases hE
  | cons x xs ih =>
    intro hE
    simp only [ipmapremove]
    split
    next hx =>
      rcases List.mem_cons.mp hE with h | h
      · exfalso
        apply hne
        rw [h]
        exact (entMatch_iff_keyOf k l x).mp hx
      · exact h
    next hx =>
      rcases List.mem_cons.mp hE with h | h
      · rw [h]
        exact List.mem_cons_self _ _
      · exact List.mem_cons_of_mem _ (ih h)

theorem destroyOne_heapR_expires (s : St) (e : (Nat × Nat) × RId) (x : RId) :
    ((destroyOne s e).heapR x).expires = (s.heapR x).expires := by
  unfold destroyOne
  dsimp only
  rw [collapse_heapR, unlinkroute_heapR_expires]

theorem destroyOne_routes (s : St) (e : (Nat × Nat) × RId) :
    (destroyOne s e).routes = ipmapremove s.routes e.1.1 e.1.2 := by
  unfold destroyOne
  dsimp only
  rw [collapse_routes, unlinkroute_routesmap]

theorem destroyOne_mem (s : St) (v E : (Nat × Nat) × RId) (hE : E ∈ s.routes)
    (hne : keyOf E ≠ keyOf v) : E ∈ (destroyOne s v).routes := by
  rw [destroyOne_routes]
  exact ipmapremove_mem_of_ne _ _ _ _ hE hne

theorem foldl_destroy_preserve (vs : List ((Nat × Nat) × RId)) (s : St)
    (E : (Nat × Nat) × RId) (hmemE : E ∈ s.routes)
    (hvs : ∀ v ∈ vs, keyOf v ≠ keyOf E) :
    E ∈ (vs.foldl destroyOne s).routes ∧
    (∀ x, ((vs.foldl destroyOne s).heapR x).expires = (s.heapR x).expires) ∧
    (∀ e2 ∈ (vs.foldl destroyOne s).routes, e2 ∈ s.routes) := by
  induction vs generalizing s with
  | nil => exact ⟨hmemE, fun _ => rfl, fun e2 he2 => he2⟩
  | cons v vs' ih =>
    rw [List.foldl_cons]
    have hE1 : E ∈ (destroyOne s v).routes :=
      destroyOne_mem s v E hmemE
        (fun h => hvs v (List.mem_cons_self _ _) (by rw [h]))
    obtain ⟨ha, hb, hc⟩ := ih (destroyOne s v) hE1
      (fun w hw => hvs w (List.mem_cons_of_mem _ hw))
    refine ⟨ha, ?_, ?_⟩
    · intro x
      rw [hb x, destroyOne_heapR_expires]
    · intro e2 he2
      have h2 := hc e2 he2
      rw [destroyOne_routes] at h2
      exact ipmapremove_subset _ _ _ _ h2

theorem walkexpired_preserve (st : St) (now : Int) (a al : Nat) (rid : RId)
    (hnd : ipNodup st.routes)
    (hf : ipmapfind st.routes a al = some rid)
    (hexp : now < (st.heapR rid).expires) :
    ipmapfind (walkexpired st now).routes a al = some rid ∧
    ((walkexpired st now).heapR rid).expires = (st.heapR rid).expires := by
  obtain ⟨E, hEf, hEr⟩ := Option.map_eq_some'.mp hf
  have hEm : E ∈ st.routes := List.mem_of_find?_eq_some hEf
  have hEmatch : entMatch a al E = true := List.find?_some hEf
  have hvs : ∀ v ∈ st.routes.filter (fun e => decide ((st.heapR e.2).expires ≤ now)),
      keyOf v ≠ keyOf E := by
    intro v hv hkey
    obtain ⟨hvm, hvp⟩ := List.mem_filter.mp hv
    have hveq : v = E := nodup_map_eq keyOf st.routes hnd v E hvm hEm hkey
    have hvexp : (st.heapR v.2).expires ≤ now := of_decide_eq_true hvp
    rw [hveq, hEr] at hvexp
    omega
  unfold walkexpired
  obtain ⟨hmem, hexpeq, hsub⟩ := foldl_destroy_preserve _ st E hEm hvs
  refine ⟨?_, hexpeq rid⟩
  unfold ipmapfind
  rw [find?_eq_of_mem_unique (entMatch a al) _ E hmem hEmatch ?uniq]
  · rw [Option.map_some']
    rw [hEr]
  case uniq =>
    intro b hb hpb
    have hbm : b ∈ st.routes := hsub b hb
    have hbey : keyOf b = keyOf E := by
      rw [(entMatch_iff_keyOf a al b).mp hpb, (entMatch_iff_keyOf a al E).mp hEmatch]
    exact nodup_map_eq keyOf st.routes hnd b E hbm hEm hbey

theorem processList_preserve (l : List RIPResponse) (st : St) (now : Int)
    (a al : Nat) (rid : RId)
    (hnd : ipNodup st.routes)
    (hf : ipmapfind st.routes a al = some rid)
    (hexp : now < (st.heapR rid).expires) :
    ipNodup (processList st l now).routes ∧
    ipmapfind (processList st l now).routes a al = some rid ∧
    now < ((processList st l now).heapR rid).expires := by
  induction l generalizing st with
  | nil => exact ⟨hnd, hf, hexp⟩
  | cons x xs ih =>
    have hstep1 := ripresponse_nodup st x now hnd
    have hstep2 := ripresponse_find_preserve st x now a al rid hf
    have hstep3 : now < (((ripresponse st x now).1).heapR rid).expires := by
      rcases ripresponse_heapR_expires st x now rid with h | h
      · rw [h]
        exact hexp
      · rw [h]
        have hT : (0 : Int) < TIMEOUT := by norm_num [TIMEOUT]
        omega
    exact ih (ripresponse st x now).1 hstep1 hstep2 hstep3

theorem processList_nodup (l : List RIPResponse) (st : St) (now : Int)
    (hnd : ipNodup st.routes) : ipNodup (processList st l now).routes := by
  induction l generalizing st with
  | nil => exact hnd
  | cons x xs ih => exact ih (ripresponse st x now).1 (ripresponse_nodup st x now hnd)

/-- C6: in one riptide call every response of the batch is processed
before the expiration sweep, with the sweep using the same now; a route
whose expiration was refreshed to now + TIMEOUT by any advertisement of
the batch (here: after processing the prefix ending with that
advertisement) is still present in the routes map after the whole call,
with its expiration strictly beyond now, so the sweep neither collects
nor destroys it — regardless of how stale its previous expiration
was. -/
theorem riptide_refresh_survives (st : St) (pre post : List RIPResponse)
    (r : RIPResponse) (now : Int) (a al : Nat) (rid : RId)
    (hnd : ipNodup st.routes)
    (hfind : ipmapfind (processList st (pre ++ [r]) now).routes a al = some rid)
    (hexp : ((processList st (pre ++ [r]) now).heapR rid).expires = now + TIMEOUT) :
    ipmapfind (riptide st (pre ++ r :: post) now).routes a al = some rid ∧
    now < ((riptide st (pre ++ r :: post) now).heapR rid).expires := by
  have hT : (0 : Int) < TIMEOUT := by norm_num [TIMEOUT]
  have hsplit : processList st (pre ++ r :: post) now =
      processList (processList st (pre ++ [r]) now) post now := by
    unfold processList
    rw [show pre ++ r :: post = (pre ++ [r]) ++ post by simp]
    rw [List.foldl_append]
  have hnd1 : ipNodup (processList st (pre ++ [r]) now).routes :=
    processList_nodup (pre ++ [r]) st now hnd
  have hexp1 : now < ((processList st (pre ++ [r]) now).heapR rid).expires := by
    rw [hexp]
    omega
  obtain ⟨hnd2, hf2, hexp2⟩ :=
    processList_preserve post (processList st (pre ++ [r]) now) now a al rid
      hnd1 hfind hexp1
  unfold riptide
  rw [hsplit]
  obtain ⟨hfin, hexpfin⟩ := walkexpired_preserve _ now a al rid hnd2 hf2 hexp2
  refine ⟨hfin, ?_⟩
  rw [hexpfin]
  exact hexp2

/-- Witness for C6: demoResp refreshed route 0 at time 5; the riptide call
consisting of just that advertisement leaves the route in place. -/
theorem riptide_refresh_survives_witness :
    ipNodup demoSt.routes ∧
    ipmapfind (processList demoSt ([] ++ [demoResp]) 5).routes
      (ripIp demoResp) (ripKl demoResp) = some 0 ∧
    ((processList demoSt ([] ++ [demoResp]) 5).heapR 0).expires = 5 + TIMEOUT ∧
    ipmapfind (riptide demoSt ([] ++ demoResp :: []) 5).routes
      (ripIp demoResp) (ripKl demoResp) = some 0 :=
  ⟨by unfold ipNodup; decide, by decide, by decide,
   (riptide_refresh_survives demoSt [] [] demoResp 5 (ripIp demoResp)
     (ripKl demoResp) 0 (by unfold ipNodup; decide) (by decide) (by decide)).1⟩

end Ripd

